import Mathlib

/-!
Verification of the Body Composition Analysis Engine
(`features/photoanalysis` services: `hash_generator.py`, `id_generator.py`,
`body_type_classifier.py`, `confidence_scorer.py`, `scan_assembler.py`,
`models/schemas.py`).

The Python code is shallowly embedded: floats become exact rationals (`ℚ`),
Python `round` becomes round-half-even on rationals, f-string numeric
formatting becomes an explicit decimal renderer, optional fields become
`Option`, and code that can raise a `TypeError` on a missing optional field
returns `Option` (with `none` standing for the raised error).
-/

/- Batteries marks rational arithmetic `@[irreducible]`, which blocks
`decide`-style evaluation of the executable embedding on concrete inputs;
restore the default reducibility for this file. -/
attribute [local semireducible] Rat.add Rat.mul Rat.sub Rat.inv Rat.ofScientific

namespace PhotoAnalysis

/-! ## Decimal rounding (Python `round`, round-half-even) -/

/-- Kernel-computable floor of a rational (Mathlib's `⌊⌋` is not
reducible by the kernel). -/
def ratFloor (q : ℚ) : ℤ := q.num / q.den

theorem ratFloor_eq (q : ℚ) : ratFloor q = ⌊q⌋ := by
  unfold ratFloor
  exact Rat.floor_def.symm

/-- Round-half-even on rationals, the semantics of Python's builtin `round`
(banker's rounding) restricted from binary floats to exact rationals. -/
def roundHalfEven (q : ℚ) : ℤ :=
  if q - ratFloor q < 1/2 then ratFloor q
  else if 1/2 < q - ratFloor q then ratFloor q + 1
  else if ratFloor q % 2 = 0 then ratFloor q else ratFloor q + 1

theorem roundHalfEven_def (q : ℚ) : roundHalfEven q =
    if q - ⌊q⌋ < 1/2 then ⌊q⌋
    else if 1/2 < q - ⌊q⌋ then ⌊q⌋ + 1
    else if ⌊q⌋ % 2 = 0 then ⌊q⌋ else ⌊q⌋ + 1 := by
  unfold roundHalfEven
  rw [ratFloor_eq]

/-- Python `round(q, d)`: round to `d` decimal places, ties to even. -/
def roundTo (d : ℕ) (q : ℚ) : ℚ :=
  (roundHalfEven (q * 10 ^ d) : ℚ) / 10 ^ d

theorem roundHalfEven_intCast (z : ℤ) : roundHalfEven (z : ℚ) = z := by
  simp [roundHalfEven_def]

theorem roundHalfEven_le (q : ℚ) : (⌊q⌋ : ℤ) ≤ roundHalfEven q := by
  rw [roundHalfEven_def]
  split <;> [skip; split] <;> [omega; omega; split] <;> omega

theorem roundHalfEven_le_ceil (q : ℚ) : roundHalfEven q ≤ ⌊q⌋ + 1 := by
  rw [roundHalfEven_def]
  split <;> [skip; split] <;> [omega; omega; split] <;> omega

theorem roundHalfEven_eq_floor {q : ℚ} (h : q - ⌊q⌋ < 1/2) :
    roundHalfEven q = ⌊q⌋ := by
  rw [roundHalfEven_def, if_pos h]

theorem roundHalfEven_eq_succ {q : ℚ} (h : 1/2 < q - ⌊q⌋) :
    roundHalfEven q = ⌊q⌋ + 1 := by
  have h' : ¬ (q - ⌊q⌋ < 1/2) := by linarith
  rw [roundHalfEven_def, if_neg h', if_pos h]

theorem roundHalfEven_eq_half {q : ℚ} (h : q - ⌊q⌋ = 1/2) :
    roundHalfEven q = (if ⌊q⌋ % 2 = 0 then ⌊q⌋ else ⌊q⌋ + 1) := by
  have h1 : ¬ (q - ⌊q⌋ < 1/2) := by rw [h]; exact lt_irrefl _
  have h2 : ¬ (1/2 < q - ⌊q⌋) := by rw [h]; exact lt_irrefl _
  rw [roundHalfEven_def, if_neg h1, if_neg h2]

theorem roundHalfEven_mono {x y : ℚ} (h : x ≤ y) :
    roundHalfEven x ≤ roundHalfEven y := by
  rcases lt_or_eq_of_le (Int.floor_le_floor h) with hf | hf
  · calc roundHalfEven x ≤ ⌊x⌋ + 1 := roundHalfEven_le_ceil x
      _ ≤ ⌊y⌋ := by omega
      _ ≤ roundHalfEven y := roundHalfEven_le y
  · have hr : x - (⌊x⌋ : ℚ) ≤ y - (⌊y⌋ : ℚ) := by
      rw [hf]; linarith
    rcases lt_trichotomy (y - (⌊y⌋ : ℚ)) (1/2) with hy | hy | hy
    · rw [roundHalfEven_eq_floor (lt_of_le_of_lt hr hy),
        roundHalfEven_eq_floor hy]
      omega
    · rcases lt_trichotomy (x - (⌊x⌋ : ℚ)) (1/2) with hx | hx | hx
      · rw [roundHalfEven_eq_floor hx]
        calc ⌊x⌋ ≤ ⌊y⌋ := by omega
          _ ≤ roundHalfEven y := roundHalfEven_le y
      · rw [roundHalfEven_eq_half hx, roundHalfEven_eq_half hy, hf]
      · exact absurd (lt_of_lt_of_le hx (hr.trans hy.le)) (lt_irrefl _)
    · rw [roundHalfEven_eq_succ hy]
      calc roundHalfEven x ≤ ⌊x⌋ + 1 := roundHalfEven_le_ceil x
        _ = ⌊y⌋ + 1 := by omega

theorem roundTo_intCast_mul (d : ℕ) (z : ℤ) :
    roundTo d ((z : ℚ) / 10 ^ d) = (z : ℚ) / 10 ^ d := by
  have h10 : (10 : ℚ) ^ d ≠ 0 := by positivity
  simp [roundTo, div_mul_cancel₀ _ h10, roundHalfEven_intCast]

theorem roundTo_mono (d : ℕ) {x y : ℚ} (h : x ≤ y) : roundTo d x ≤ roundTo d y := by
  have h10 : (0 : ℚ) < 10 ^ d := by positivity
  have h2 := roundHalfEven_mono (mul_le_mul_of_nonneg_right h (le_of_lt h10))
  have h3 : ((roundHalfEven (x * 10 ^ d) : ℤ) : ℚ) ≤ ((roundHalfEven (y * 10 ^ d) : ℤ) : ℚ) := by
    exact_mod_cast h2
  unfold roundTo
  exact div_le_div_of_nonneg_right h3 h10.le

/-- `roundTo` fixes any rational that already has `d` decimal places. -/
theorem roundTo_fix {d : ℕ} {q : ℚ} (z : ℤ) (hq : q = (z : ℚ) / 10 ^ d) :
    roundTo d q = q := by
  subst hq; exact roundTo_intCast_mul d z

/-! ## Decimal rendering (Python float `repr` / f-string `:.Nf` formatting) -/

/-- The ASCII digit character for `n % 10`. -/
def digitChar (n : ℕ) : Char := Char.ofNat (48 + n % 10)

/-- Fuel-driven digit expansion (structural recursion so the kernel can
evaluate it). -/
def natDigitsAux (fuel : ℕ) (m : ℕ) : List Char :=
  match fuel with
  | 0 => [digitChar m]
  | fuel + 1 =>
    if m < 10 then [digitChar m]
    else natDigitsAux fuel (m / 10) ++ [digitChar (m % 10)]

/-- Decimal digit characters of a natural number, most significant first. -/
def natDigits (m : ℕ) : List Char := natDigitsAux m m

theorem natDigitsAux_congr (m : ℕ) : ∀ f₁ f₂, m ≤ f₁ → m ≤ f₂ →
    natDigitsAux f₁ m = natDigitsAux f₂ m := by
  induction m using Nat.strong_induction_on with
  | _ m ih =>
    intro f₁ f₂ h₁ h₂
    match f₁, f₂ with
    | 0, 0 => rfl
    | 0, f₂ + 1 =>
      have hm : m = 0 := by omega
      subst hm; simp [natDigitsAux]
    | f₁ + 1, 0 =>
      have hm : m = 0 := by omega
      subst hm; simp [natDigitsAux]
    | f₁ + 1, f₂ + 1 =>
      simp only [natDigitsAux]
      split
      · rfl
      · next hm =>
        rw [ih (m / 10) (Nat.div_lt_self (by omega) (by omega)) f₁ f₂
          (by omega) (by omega)]

/-- The intended recursion equation for `natDigits`. -/
theorem natDigits_eq (m : ℕ) : natDigits m =
    if m < 10 then [digitChar m]
    else natDigits (m / 10) ++ [digitChar (m % 10)] := by
  unfold natDigits
  match m with
  | 0 => simp [natDigitsAux]
  | m + 1 =>
    simp only [natDigitsAux]
    split
    · rfl
    · next hm =>
      rw [natDigitsAux_congr (Nat.succ m / 10) m (Nat.succ m / 10)
        (by omega) (le_refl _)]

/-- Left-pad a digit string with `'0'` to length `d`. -/
def padZeros (d : ℕ) (l : List Char) : List Char :=
  List.replicate (d - l.length) '0' ++ l

/-- Python `f"{q:.df}"` fixed-point formatting (round-half-even, always
exactly `d` digits after the decimal point, leading `-` when negative). -/
def fmtFixed (d : ℕ) (q : ℚ) : String :=
  (if roundHalfEven (q * 10 ^ d) < 0 then "-" else "") ++
    String.mk (natDigits ((roundHalfEven (q * 10 ^ d)).natAbs / 10 ^ d)) ++
    "." ++
    String.mk (padZeros d (natDigits ((roundHalfEven (q * 10 ^ d)).natAbs % 10 ^ d)))

/-- The start code points of the 66 aligned blocks of ten consecutive
Unicode decimal digits (category `Nd`, Unicode 14/15): Python's `\d`
matches exactly these characters, and each block runs through the digit
values 0–9 in order. -/
def ndDigitBlockStarts : List ℕ :=
  [48, 1632, 1776, 1984, 2406, 2534, 2662, 2790,
   2918, 3046, 3174, 3302, 3430, 3558, 3664, 3792,
   3872, 4160, 4240, 6112, 6160, 6470, 6608, 6784,
   6800, 6992, 7088, 7232, 7248, 42528, 43216, 43264,
   43472, 43504, 43600, 44016, 65296, 66720, 68912, 69734,
   69872, 69942, 70096, 70384, 70736, 70864, 71248, 71360,
   71472, 71904, 72016, 72784, 73040, 73120, 92768, 92864,
   93008, 120782, 120792, 120802, 120812, 120822, 123200, 123632,
   125264, 130032]

/-- Python's regex `\d` (Unicode decimal digit, category `Nd`). -/
def isPyDigit (c : Char) : Bool :=
  ndDigitBlockStarts.any (fun s => decide (s ≤ c.toNat) && decide (c.toNat ≤ s + 9))

/-- The decimal value of a Unicode decimal digit (offset within its
block), as used by Python's `float()` on `\d`-matched runs. -/
def pyDigitVal (c : Char) : ℕ :=
  match ndDigitBlockStarts.find?
      (fun s => decide (s ≤ c.toNat) && decide (c.toNat ≤ s + 9)) with
  | some s => c.toNat - s
  | none => 0

/-- Numeric value of a decimal digit string (`foldl` over the per-character
Unicode digit values, matching `float()` on the digit runs produced by the
signature-ID regex). -/
def digitsToNat (l : List Char) : ℕ :=
  l.foldl (fun a c => 10 * a + pyDigitVal c) 0

theorem isDigit_ofNat_add {k : ℕ} (h : k < 10) :
    (Char.ofNat (48 + k)).isDigit = true := by
  interval_cases k <;> decide

theorem toNat_ofNat_add {k : ℕ} (h : k < 10) :
    (Char.ofNat (48 + k)).toNat = 48 + k := by
  interval_cases k <;> decide

theorem digitChar_isDigit (n : ℕ) : (digitChar n).isDigit = true :=
  isDigit_ofNat_add (Nat.mod_lt _ (by omega))

theorem natDigits_ne_nil (m : ℕ) : natDigits m ≠ [] := by
  rw [natDigits_eq]
  split
  · simp
  · simp

theorem natDigits_all_digit (m : ℕ) : ∀ c ∈ natDigits m, c.isDigit = true := by
  induction m using Nat.strong_induction_on with
  | _ m ih =>
    rw [natDigits_eq]
    split
    · intro c hc
      simp only [List.mem_singleton] at hc
      subst hc; exact digitChar_isDigit m
    · intro c hc
      rw [List.mem_append] at hc
      rcases hc with hc | hc
      · exact ih (m / 10) (Nat.div_lt_self (by omega) (by omega)) c hc
      · simp only [List.mem_singleton] at hc
        subst hc; exact digitChar_isDigit (m % 10)

theorem digitsToNat_append_singleton (l : List Char) (c : Char) :
    digitsToNat (l ++ [c]) = 10 * digitsToNat l + pyDigitVal c := by
  simp [digitsToNat, List.foldl_append]

theorem digitChar_toNat (n : ℕ) : (digitChar n).toNat = 48 + n % 10 :=
  toNat_ofNat_add (Nat.mod_lt _ (by omega))

theorem pyDigitVal_ofNat_add {k : ℕ} (h : k < 10) :
    pyDigitVal (Char.ofNat (48 + k)) = k := by
  interval_cases k <;> decide

theorem pyDigitVal_digitChar (n : ℕ) : pyDigitVal (digitChar n) = n % 10 := by
  unfold digitChar
  exact pyDigitVal_ofNat_add (Nat.mod_lt _ (by omega))

theorem isPyDigit_ofNat_add {k : ℕ} (h : k < 10) :
    isPyDigit (Char.ofNat (48 + k)) = true := by
  interval_cases k <;> decide

theorem isPyDigit_digitChar (n : ℕ) : isPyDigit (digitChar n) = true := by
  unfold digitChar
  exact isPyDigit_ofNat_add (Nat.mod_lt _ (by omega))

theorem natDigits_all_pyDigit (m : ℕ) :
    ∀ c ∈ natDigits m, isPyDigit c = true := by
  induction m using Nat.strong_induction_on with
  | _ m ih =>
    rw [natDigits_eq]
    split
    · intro c hc
      simp only [List.mem_singleton] at hc
      subst hc
      exact isPyDigit_digitChar m
    · intro c hc
      rw [List.mem_append] at hc
      rcases hc with hc | hc
      · exact ih (m / 10) (Nat.div_lt_self (by omega) (by omega)) c hc
      · simp only [List.mem_singleton] at hc
        subst hc
        exact isPyDigit_digitChar (m % 10)

theorem padZeros_all_pyDigit (d : ℕ) {l : List Char}
    (h : ∀ c ∈ l, isPyDigit c = true) : ∀ c ∈ padZeros d l, isPyDigit c = true := by
  intro c hc
  unfold padZeros at hc
  rcases List.mem_append.mp hc with hc | hc
  · rw [List.eq_of_mem_replicate hc]
    decide
  · exact h c hc

theorem digitsToNat_natDigits (m : ℕ) : digitsToNat (natDigits m) = m := by
  induction m using Nat.strong_induction_on with
  | _ m ih =>
    rw [natDigits_eq]
    split
    · next h =>
      simp [digitsToNat, pyDigitVal_digitChar, Nat.mod_eq_of_lt h]
    · next h =>
      rw [digitsToNat_append_singleton, ih (m / 10) (Nat.div_lt_self (by omega) (by omega)),
        pyDigitVal_digitChar]
      omega

theorem digitsToNat_padZeros (d : ℕ) (l : List Char) :
    digitsToNat (padZeros d l) = digitsToNat l := by
  unfold padZeros digitsToNat
  generalize d - l.length = k
  induction k with
  | zero => simp
  | succ n ihn =>
    have h0 : pyDigitVal '0' = 0 := by decide
    simp [List.replicate_succ, h0]
    simp [digitsToNat] at ihn
    exact ihn

theorem natDigits_length_le (m k : ℕ) (h : m < 10 ^ k) (hk : 1 ≤ k) :
    (natDigits m).length ≤ k := by
  induction k generalizing m with
  | zero => omega
  | succ k ihk =>
    rw [natDigits_eq]
    split
    · simp
    · next hm =>
      have hdiv : m / 10 < 10 ^ k := by
        rw [Nat.div_lt_iff_lt_mul (by omega)]
        calc m < 10 ^ (k + 1) := h
          _ = 10 ^ k * 10 := by ring
      rcases Nat.eq_zero_or_pos k with hk0 | hk0
      · subst hk0; omega
      · have := ihk (m / 10) hdiv hk0
        simp only [List.length_append, List.length_singleton]
        omega

/-! ## Data model (`models/schemas.py`) -/

/-- `BodyType` enumeration (schemas.py, Step 14). -/
inductive BodyType where
  | VTAPER
  | CLASSIC
  | RECTANGULAR
  | APPLE
  | PEAR
  | BALANCED
deriving DecidableEq, Repr

/-- The `str` value of each `BodyType` enum member. -/
def BodyType.value : BodyType → String
  | .VTAPER => "V-Taper"
  | .CLASSIC => "Classic"
  | .RECTANGULAR => "Rectangular"
  | .APPLE => "Apple"
  | .PEAR => "Pear"
  | .BALANCED => "Balanced"

/-- `BodyMeasurements` (schemas.py): floats become `ℚ`, `Optional` fields
become `Option`. -/
structure BodyMeasurements where
  chest_circumference_cm : ℚ
  waist_circumference_cm : ℚ
  hip_circumference_cm : ℚ
  bicep_circumference_cm : ℚ
  thigh_circumference_cm : ℚ
  calf_circumference_cm : Option ℚ
  shoulder_width_cm : Option ℚ
  body_fat_percent : ℚ
  estimated_weight_kg : Option ℚ
  posture_rating : ℚ
  muscle_definition : Option String
deriving DecidableEq, Repr

/-- The pydantic `Field` range constraints plus the `waist_reasonable`
validator of `BodyMeasurements` (enforced upstream of the engine). -/
def validBodyMeasurements (m : BodyMeasurements) : Prop :=
  50 ≤ m.chest_circumference_cm ∧ m.chest_circumference_cm ≤ 200 ∧
  50 ≤ m.waist_circumference_cm ∧ m.waist_circumference_cm ≤ 200 ∧
  50 ≤ m.hip_circumference_cm ∧ m.hip_circumference_cm ≤ 200 ∧
  20 ≤ m.bicep_circumference_cm ∧ m.bicep_circumference_cm ≤ 60 ∧
  30 ≤ m.thigh_circumference_cm ∧ m.thigh_circumference_cm ≤ 100 ∧
  (∀ c ∈ m.calf_circumference_cm, 20 ≤ c ∧ c ≤ 60) ∧
  (∀ s ∈ m.shoulder_width_cm, 30 ≤ s ∧ s ≤ 80) ∧
  3 ≤ m.body_fat_percent ∧ m.body_fat_percent ≤ 60 ∧
  (∀ w ∈ m.estimated_weight_kg, 30 ≤ w ∧ w ≤ 300) ∧
  0 ≤ m.posture_rating ∧ m.posture_rating ≤ 10 ∧
  m.waist_circumference_cm ≤ m.chest_circumference_cm * (3/2)

instance (m : BodyMeasurements) : Decidable (validBodyMeasurements m) := by
  unfold validBodyMeasurements
  infer_instance

/-- `BodyRatios` (schemas.py). -/
structure BodyRatios where
  shoulder_to_waist_ratio : ℚ
  adonis_index : ℚ
  golden_ratio_deviation : ℚ
  waist_to_hip_ratio : ℚ
  chest_to_waist_ratio : ℚ
  arm_to_chest_ratio : ℚ
  leg_to_torso_ratio : Option ℚ
  symmetry_score : ℚ
deriving DecidableEq, Repr

/-- `AestheticScore` (schemas.py). -/
structure AestheticScore where
  overall_score : ℚ
  golden_ratio_score : ℚ
  symmetry_score : ℚ
  composition_score : ℚ
  posture_score : ℚ
  body_type : BodyType
  body_type_confidence : ℚ
deriving DecidableEq, Repr

/-- `ConfidenceMetrics` (schemas.py); the display-only `factors_breakdown`
dict is modelled as an association list of strings. -/
structure ConfidenceMetrics where
  overall_score : ℚ
  photo_count_factor : ℚ
  consistency_factor : ℚ
  ai_confidence_factor : ℚ
  data_completeness_factor : ℚ
  validation_quality_factor : ℚ
  meets_threshold : Bool
  factors_breakdown : List (String × String)
deriving DecidableEq, Repr

/-- `overall_confidence` backward-compatibility property (alias of
`overall_score`). -/
def ConfidenceMetrics.overall_confidence (c : ConfidenceMetrics) : ℚ :=
  c.overall_score

/-- `ScanResult` (schemas.py), restricted to the fields the verified
routines (`compare_scans`, `validate_scan_result`) read; image metadata,
WHOOP data and recommendations are pass-through payload never inspected by
the claims under verification.  `timestamp` is modelled in whole days. -/
structure ScanResult where
  scan_id : String
  body_signature_id : String
  user_id : String
  timestamp : ℤ
  measurements : BodyMeasurements
  ratios : BodyRatios
  aesthetic_score : AestheticScore
  composition_hash : String
  confidence : ConfidenceMetrics
  processing_time_sec : ℚ
  api_version : String
deriving DecidableEq, Repr

/-! ## Python string predicates (ASCII fragment)

`str.isalnum` / `str.isupper` / `str.isdigit` as Python defines them,
restricted to ASCII (every string handled by the engine is ASCII). -/

/-- Python `str.isalnum()`: non-empty and every character alphanumeric. -/
def pyIsAlnum (s : String) : Bool :=
  !s.toList.isEmpty && s.toList.all (fun c => c.isAlphanum)

/-- Python `str.isupper()`: at least one cased character and no lowercase
character.  Note an all-digit string has no cased character, so `isupper`
is `false` on it. -/
def pyIsUpper (s : String) : Bool :=
  s.toList.any (fun c => c.isAlpha) && s.toList.all (fun c => !c.isLower)

/-! ## SHA-256 (`hashlib.sha256`), on byte lists, word arithmetic mod 2^32 -/

/-- Truncate to a 32-bit word. -/
def w32 (n : ℕ) : ℕ := n % 4294967296

/-- Right-rotation of a 32-bit word. -/
def rotr (n w : ℕ) : ℕ := w32 (w / 2 ^ n + w % 2 ^ n * 2 ^ (32 - n))

/-- Bitwise complement of a 32-bit word. -/
def notW (w : ℕ) : ℕ := 4294967295 - w32 w

def smallSigma0 (w : ℕ) : ℕ := (rotr 7 w ^^^ rotr 18 w) ^^^ w / 2 ^ 3

def smallSigma1 (w : ℕ) : ℕ := (rotr 17 w ^^^ rotr 19 w) ^^^ w / 2 ^ 10

def bigSigma0 (w : ℕ) : ℕ := (rotr 2 w ^^^ rotr 13 w) ^^^ rotr 22 w

def bigSigma1 (w : ℕ) : ℕ := (rotr 6 w ^^^ rotr 11 w) ^^^ rotr 25 w

def chFn (x y z : ℕ) : ℕ := (x &&& y) ^^^ (notW x &&& z)

def majFn (x y z : ℕ) : ℕ := ((x &&& y) ^^^ (x &&& z)) ^^^ (y &&& z)

/-- The 64 SHA-256 round constants (FIPS 180-4), written in decimal. -/
def sha256K : List ℕ :=
  [1116352408, 1899447441, 3049323471, 3921009573,
   961987163, 1508970993, 2453635748, 2870763221,
   3624381080, 310598401, 607225278, 1426881987,
   1925078388, 2162078206, 2614888103, 3248222580,
   3835390401, 4022224774, 264347078, 604807628,
   770255983, 1249150122, 1555081692, 1996064986,
   2554220882, 2821834349, 2952996808, 3210313671,
   3336571891, 3584528711, 113926993, 338241895,
   666307205, 773529912, 1294757372, 1396182291,
   1695183700, 1986661051, 2177026350, 2456956037,
   2730485921, 2820302411, 3259730800, 3345764771,
   3516065817, 3600352804, 4094571909, 275423344,
   430227734, 506948616, 659060556, 883997877,
   958139571, 1322822218, 1537002063, 1747873779,
   1955562222, 2024104815, 2227730452, 2361852424,
   2428436474, 2756734187, 3204031479, 3329325298]

/-- SHA-256 working state (eight 32-bit words). -/
structure Sha256State where
  a : ℕ
  b : ℕ
  c : ℕ
  d : ℕ
  e : ℕ
  f : ℕ
  g : ℕ
  h : ℕ
deriving DecidableEq, Repr

def sha256Init : Sha256State :=
  ⟨1779033703,
   3144134277,
   1013904242,
   2773480762,
   1359893119,
   2600822924,
   528734635,
   1541459225⟩

/-- One compression round. -/
def sha256Round (st : Sha256State) (kw : ℕ × ℕ) : Sha256State :=
  let t1 := w32 (st.h + bigSigma1 st.e + chFn st.e st.f st.g + kw.1 + kw.2)
  let t2 := w32 (bigSigma0 st.a + majFn st.a st.b st.c)
  ⟨w32 (t1 + t2), st.a, st.b, st.c, w32 (st.d + t1), st.e, st.f, st.g⟩

/-- Big-endian 32-bit words from a block of bytes. -/
def toWords : List ℕ → List ℕ
  | b0 :: b1 :: b2 :: b3 :: rest =>
      (((b0 * 256 + b1) * 256 + b2) * 256 + b3) :: toWords rest
  | _ => []

/-- Extend the 16 message words by `n` further schedule words. -/
def scheduleAux (ws : List ℕ) : ℕ → List ℕ
  | 0 => ws
  | n + 1 =>
      scheduleAux
        (ws ++ [w32 (smallSigma1 (ws.getD (ws.length - 2) 0) +
          ws.getD (ws.length - 7) 0 +
          smallSigma0 (ws.getD (ws.length - 15) 0) +
          ws.getD (ws.length - 16) 0)]) n

def sha256Schedule (ws : List ℕ) : List ℕ := scheduleAux ws 48

/-- Compress one 64-byte block into the state. -/
def sha256Compress (st : Sha256State) (block : List ℕ) : Sha256State :=
  let ws := sha256Schedule (toWords block)
  let r := (ws.zip sha256K).foldl (fun s wk => sha256Round s (wk.2, wk.1)) st
  ⟨w32 (st.a + r.a), w32 (st.b + r.b), w32 (st.c + r.c), w32 (st.d + r.d),
   w32 (st.e + r.e), w32 (st.f + r.f), w32 (st.g + r.g), w32 (st.h + r.h)⟩

/-- Big-endian 8-byte encoding of the bit length. -/
def lenBytes (n : ℕ) : List ℕ :=
  [n / 2 ^ 56 % 256, n / 2 ^ 48 % 256, n / 2 ^ 40 % 256, n / 2 ^ 32 % 256,
   n / 2 ^ 24 % 256, n / 2 ^ 16 % 256, n / 2 ^ 8 % 256, n % 256]

/-- SHA-256 padding: `0x80`, zeros to 56 mod 64, then the 64-bit length. -/
def padMessage (msg : List ℕ) : List ℕ :=
  msg ++ [128] ++ List.replicate ((119 - msg.length % 64) % 64) 0 ++
    lenBytes (8 * msg.length)

def toBlocksAux (fuel : ℕ) (l : List ℕ) : List (List ℕ) :=
  match fuel with
  | 0 => []
  | fuel + 1 =>
    if l.isEmpty then []
    else l.take 64 :: toBlocksAux fuel (l.drop 64)

/-- Split into 64-byte blocks (fuel-driven structural recursion). -/
def toBlocks (l : List ℕ) : List (List ℕ) := toBlocksAux l.length l

/-- Big-endian bytes of a 32-bit word. -/
def wordBytes (w : ℕ) : List ℕ :=
  [w / 2 ^ 24 % 256, w / 2 ^ 16 % 256, w / 2 ^ 8 % 256, w % 256]

/-- SHA-256 digest (32 bytes) of a byte list. -/
def sha256Bytes (msg : List ℕ) : List ℕ :=
  let fin := (toBlocks (padMessage msg)).foldl sha256Compress sha256Init
  wordBytes fin.a ++ wordBytes fin.b ++ wordBytes fin.c ++ wordBytes fin.d ++
    wordBytes fin.e ++ wordBytes fin.f ++ wordBytes fin.g ++ wordBytes fin.h

/-- Lowercase hex character of `n % 16`. -/
def hexChar (n : ℕ) : Char :=
  if n % 16 < 10 then Char.ofNat (48 + n % 16) else Char.ofNat (87 + n % 16)

def byteHexChars (b : ℕ) : List Char := [hexChar (b / 16), hexChar b]

/-- `hashlib.sha256(...).hexdigest()` as a character list. -/
def sha256Hexdigest (msg : List ℕ) : List Char :=
  ((sha256Bytes msg).map byteHexChars).flatten

/-- UTF-8 bytes of an ASCII string (all engine strings are ASCII, where
UTF-8 bytes coincide with code points). -/
def strToBytes (s : String) : List ℕ := s.toList.map Char.toNat

/-! ## Composition hash generator (`services/hash_generator.py`) -/

/-- `repr` of a Python float holding a value with at most two decimal
places (the only values `json.dumps` renders in the composition dict,
which are results of `round(x, 1)` / `round(x, 2)`): shortest decimal
form, with at least one digit after the point. -/
def jsonFloatRepr (q : ℚ) : String :=
  if (q * 10).den = 1 then fmtFixed 1 q else fmtFixed 2 q

/-- `json.dumps(composition_data, sort_keys=True)` from
`generate_composition_hash`: the nine rounded fields in sorted key order
with the default `", "` / `": "` separators. -/
def compositionString (m : BodyMeasurements) (r : BodyRatios) : String :=
  "\x7b\"bicep\": " ++ jsonFloatRepr (roundTo 1 m.bicep_circumference_cm) ++
  ", \"body_fat\": " ++ jsonFloatRepr (roundTo 1 m.body_fat_percent) ++
  ", \"chest\": " ++ jsonFloatRepr (roundTo 1 m.chest_circumference_cm) ++
  ", \"chest_waist_ratio\": " ++ jsonFloatRepr (roundTo 2 r.chest_to_waist_ratio) ++
  ", \"hips\": " ++ jsonFloatRepr (roundTo 1 m.hip_circumference_cm) ++
  ", \"shoulder_waist_ratio\": " ++ jsonFloatRepr (roundTo 2 r.shoulder_to_waist_ratio) ++
  ", \"thigh\": " ++ jsonFloatRepr (roundTo 1 m.thigh_circumference_cm) ++
  ", \"waist\": " ++ jsonFloatRepr (roundTo 1 m.waist_circumference_cm) ++
  ", \"waist_hip_ratio\": " ++ jsonFloatRepr (roundTo 2 r.waist_to_hip_ratio) ++
  "\x7d"

/-- `generate_composition_hash`: SHA-256 of the canonical composition
string, first 6 hex characters, uppercased. -/
def generate_composition_hash (m : BodyMeasurements) (r : BodyRatios) : String :=
  String.mk (((sha256Hexdigest (strToBytes (compositionString m r))).take 6).map
    Char.toUpper)

/-- `validate_hash_format`: falsy check, length check, `str.isalnum`,
`str.isupper`. -/
def validate_hash_format (hash_str : String) : Bool :=
  if hash_str.toList.isEmpty then false
  else if hash_str.toList.length ≠ 6 then false
  else if !pyIsAlnum hash_str then false
  else if !pyIsUpper hash_str then false
  else true

/-! ## Body signature ID generator (`services/id_generator.py`) -/

/-- `format_body_type`: the enum's display value with spaces and hyphens
removed (`str.replace(" ", "").replace("-", "")` on single-character
patterns is character filtering). -/
def format_body_type (body_type : BodyType) : String :=
  String.mk (body_type.value.toList.filter (fun c => !(c == ' ' || c == '-')))

/-- `generate_body_signature_id`:
`{BodyType}-BF{fat:.1f}-{hash}-AI{adonis:.2f}`. -/
def generate_body_signature_id (body_type : BodyType) (body_fat_percent : ℚ)
    (composition_hash : String) (adonis_index : ℚ) : String :=
  format_body_type body_type ++ "-" ++ ("BF" ++ fmtFixed 1 body_fat_percent) ++
    "-" ++ composition_hash ++ "-" ++ ("AI" ++ fmtFixed 2 adonis_index)

/-- A hash character class `[A-F0-9]` test. -/
def isHexUpperDigit (c : Char) : Bool :=
  c.isDigit || (decide ('A' ≤ c) && decide (c ≤ 'F'))

/-- Result dictionary of `parse_body_signature_id`. -/
structure ParsedSignature where
  body_type : String
  body_fat_percent : ℚ
  composition_hash : String
  adonis_index : ℚ
  original_id : String
deriving DecidableEq, Repr

/-- Exact value of a decimal literal `d1.d2` (the regex guarantees the
digit runs; Python `float()` parses them to the nearest double, modelled
here as the exact decimal value). -/
def decimalValue (d1 d2 : List Char) : ℚ :=
  (digitsToNat d1 : ℚ) + (digitsToNat d2 : ℚ) / 10 ^ d2.length

/-- Matching engine for the anchored pattern
`^([A-Za-z]+)-BF(\d+\.\d+)-([A-F0-9]{6})-AI(\d+\.\d+)$` under Python's
`re.match` semantics: `\d` is any Unicode decimal digit (category `Nd`,
`isPyDigit`) and `$` matches at the end of the string or just before one
trailing `'\n'`. Each `+`-group is followed in the pattern by a character
its class cannot match, so the regex decomposition is unique and maximal
munch (`takeWhile`/`dropWhile`) implements it exactly. Returns the four
capture groups. -/
def sigRegexMatch (l : List Char) :
    Option (List Char × List Char × List Char × List Char × List Char × List Char) :=
  match l.takeWhile Char.isAlpha, l.dropWhile Char.isAlpha with
  | b0 :: bt', '-' :: 'B' :: 'F' :: r2 =>
    match r2.takeWhile isPyDigit, r2.dropWhile isPyDigit with
    | x1 :: d1', '.' :: r4 =>
      match r4.takeWhile isPyDigit, r4.dropWhile isPyDigit with
      | x2 :: d2', '-' :: c1 :: c2 :: c3 :: c4 :: c5 :: c6 :: '-' :: 'A' :: 'I' :: r8 =>
        if isHexUpperDigit c1 && isHexUpperDigit c2 && isHexUpperDigit c3 &&
            isHexUpperDigit c4 && isHexUpperDigit c5 && isHexUpperDigit c6 then
          match r8.takeWhile isPyDigit, r8.dropWhile isPyDigit with
          | x3 :: d3', '.' :: r10 =>
            match r10.takeWhile isPyDigit, r10.dropWhile isPyDigit with
            | x4 :: d4', [] =>
              some (b0 :: bt', x1 :: d1', x2 :: d2',
                [c1, c2, c3, c4, c5, c6], x3 :: d3', x4 :: d4')
            | x4 :: d4', ['\n'] =>
              some (b0 :: bt', x1 :: d1', x2 :: d2',
                [c1, c2, c3, c4, c5, c6], x3 :: d3', x4 :: d4')
            | _, _ => none
          | _, _ => none
        else none
      | _, _ => none
    | _, _ => none
  | _, _ => none

/-- `parse_body_signature_id`: regex match, then build the component
dictionary (`float()` on the matched digit runs cannot fail, so the
`try`/`except ValueError` guard never fires). -/
def parse_body_signature_id (signature_id : String) : Option ParsedSignature :=
  match sigRegexMatch signature_id.toList with
  | none => none
  | some (bt, d1, d2, h, d3, d4) =>
    some ⟨String.mk bt, decimalValue d1 d2, String.mk h,
      decimalValue d3 d4, signature_id⟩

/-! ## Body type classifier & aesthetic scorer
(`services/body_type_classifier.py`) -/

/-- The candidate list built by `classify_body_type`, in program order:
each rule appends `(BodyType, confidence)` when its thresholds hold. -/
def classifications (ratios : BodyRatios) (measurements : BodyMeasurements) :
    List (BodyType × ℚ) :=
  let stw := ratios.shoulder_to_waist_ratio
  let whr := ratios.waist_to_hip_ratio
  let ctw := ratios.chest_to_waist_ratio
  let symmetry := ratios.symmetry_score
  (if stw ≥ 14/10 ∧ ctw ≥ 13/10 then
    if stw ≥ 16/10 then [(BodyType.VTAPER, 95/100)] else [(BodyType.VTAPER, 80/100)]
  else []) ++
  (if 135/100 ≤ stw ∧ stw ≤ 155/100 ∧ symmetry ≥ 80 then
    [(BodyType.CLASSIC, 85/100)] else []) ++
  (if 14/10 ≤ stw ∧ stw ≤ 17/10 ∧ 85/100 ≤ whr ∧ whr ≤ 95/100 ∧ symmetry ≥ 85 then
    [(BodyType.BALANCED, 90/100)] else []) ++
  (if stw < 12/10 ∧ |whr - 1| < 1/10 then
    [(BodyType.RECTANGULAR, 85/100)] else []) ++
  (if whr > 95/100 ∧ measurements.body_fat_percent > 20 then
    [(BodyType.APPLE, 80/100)] else []) ++
  (if whr < 85/100 ∧ measurements.hip_circumference_cm > measurements.chest_circumference_cm then
    [(BodyType.PEAR, 75/100)] else [])

/-- Stable insertion for descending sort by confidence: an element goes
before the first strictly-smaller key, after equal keys met first —
the behaviour of Python's stable `list.sort(key=..., reverse=True)`. -/
def insertDesc (x : BodyType × ℚ) : List (BodyType × ℚ) → List (BodyType × ℚ)
  | [] => [x]
  | y :: ys => if x.2 ≥ y.2 then x :: y :: ys else y :: insertDesc x ys

/-- Stable descending sort by confidence
(`classifications.sort(key=lambda x: x[1], reverse=True)`). -/
def sortDesc (l : List (BodyType × ℚ)) : List (BodyType × ℚ) :=
  l.foldr insertDesc []

/-- `classify_body_type`: highest-confidence fired rule, defaulting to
`(Rectangular, 0.60)` when no rule fires. -/
def classify_body_type (ratios : BodyRatios) (measurements : BodyMeasurements) :
    BodyType × ℚ :=
  match sortDesc (classifications ratios measurements) with
  | [] => (BodyType.RECTANGULAR, 60/100)
  | c :: _ => c

/-- `calculate_golden_ratio_score` (0–40); `deviation` is
`|adonis_index - 1.618|`. -/
def calculate_golden_ratio_score (ratios : BodyRatios) : ℚ :=
  if |ratios.adonis_index - 1618/1000| ≤ 5/100 then 40
  else if |ratios.adonis_index - 1618/1000| ≥ 1/2 then 0
  else roundTo 1 (40 * (1 - |ratios.adonis_index - 1618/1000| / (1/2)))

/-- `calculate_symmetry_component_score` (0–30). -/
def calculate_symmetry_component_score (ratios : BodyRatios) : ℚ :=
  roundTo 1 (ratios.symmetry_score / 100 * 30)

/-- `calculate_composition_score` (0–20, discretized table on
`bf = body_fat_percent`). -/
def calculate_composition_score (measurements : BodyMeasurements) : ℚ :=
  if 10 ≤ measurements.body_fat_percent ∧ measurements.body_fat_percent ≤ 15 then 20
  else if (8 ≤ measurements.body_fat_percent ∧ measurements.body_fat_percent < 10) ∨
      (15 < measurements.body_fat_percent ∧ measurements.body_fat_percent ≤ 18) then 18
  else if (5 ≤ measurements.body_fat_percent ∧ measurements.body_fat_percent < 8) ∨
      (18 < measurements.body_fat_percent ∧ measurements.body_fat_percent ≤ 22) then 15
  else if measurements.body_fat_percent < 5 ∨ measurements.body_fat_percent > 30 then 5
  else 12

/-- `calculate_posture_score` (0–10). -/
def calculate_posture_score (posture_rating : ℚ) : ℚ :=
  roundTo 1 posture_rating

/-- `calculate_aesthetic_score`: the four component scores and their sum
(rounded to one decimal) as `overall_score`. -/
def calculate_aesthetic_score (ratios : BodyRatios) (body_type : BodyType)
    (measurements : BodyMeasurements) (body_type_confidence : ℚ) :
    AestheticScore :=
  let golden_ratio_score := calculate_golden_ratio_score ratios
  let symmetry_score := calculate_symmetry_component_score ratios
  let composition_score := calculate_composition_score measurements
  let posture_score := calculate_posture_score measurements.posture_rating
  let overall_score :=
    golden_ratio_score + symmetry_score + composition_score + posture_score
  ⟨roundTo 1 overall_score, golden_ratio_score, symmetry_score,
    composition_score, posture_score, body_type, body_type_confidence⟩

/-! ## Confidence scorer (`services/confidence_scorer.py`) -/

/-- `settings.min_confidence_score` (config/settings.py). -/
def min_confidence_score : ℚ := 70/100

/-- Decimal representation of an integer (Python `f"{z}"`). -/
def intRepr (z : ℤ) : String :=
  (if z < 0 then "-" else "") ++ String.mk (natDigits z.natAbs)

/-- `ConfidenceScorer._calculate_photo_factor`. -/
def calculate_photo_factor (photo_count : ℤ) : ℚ :=
  if photo_count ≥ 3 then 1
  else if photo_count = 2 then 75/100
  else if photo_count = 1 then 50/100
  else 0

/-- `ConfidenceScorer._calculate_consistency_factor`.  Checks 4 and 5
dereference the optional `calf_circumference_cm` and `shoulder_width_cm`
fields; when either is `None` the Python comparison/division raises
`TypeError`, modelled by `none`. -/
def calculate_consistency_factor (m : BodyMeasurements) : Option ℚ :=
  match m.calf_circumference_cm, m.shoulder_width_cm with
  | some calf, some shoulder =>
    some (max 0
      (((((1 -
        (if m.waist_circumference_cm > m.chest_circumference_cm then 10/100 else 0)) -
        (if m.muscle_definition = some "high" ∧ m.body_fat_percent > 20 then 15/100
          else if m.muscle_definition = some "low" ∧ m.body_fat_percent < 10 then 15/100
          else 0)) -
        (if m.bicep_circumference_cm > m.thigh_circumference_cm then 25/100 else 0)) -
        (if calf > m.thigh_circumference_cm then 20/100 else 0)) -
        (if shoulder / m.chest_circumference_cm < 30/100 ∨
            shoulder / m.chest_circumference_cm > 80/100 then 15/100 else 0)))
  | _, _ => none

/-- `ConfidenceScorer._get_consistency_summary`. -/
def get_consistency_summary (m : BodyMeasurements) : Option String :=
  (calculate_consistency_factor m).map fun factor =>
    if factor ≥ 90/100 then "Excellent"
    else if factor ≥ 75/100 then "Good"
    else if factor ≥ 60/100 then "Fair"
    else "Poor"

/-- `ConfidenceScorer._calculate_ai_factor`. -/
def calculate_ai_factor (finish_reason extraction_strategy : String) : ℚ :=
  let score : ℚ :=
    if finish_reason = "stop" then 1
    else if finish_reason = "length" then 70/100
    else 50/100
  let extraction_score : ℚ :=
    if extraction_strategy = "direct_parse" then 1
    else if extraction_strategy = "markdown_strip" then 95/100
    else if extraction_strategy = "regex_extract" then 85/100
    else if extraction_strategy = "error_fix" then 75/100
    else if extraction_strategy = "ai_repair" then 60/100
    else 50/100
  score * (60/100) + extraction_score * (40/100)

/-- `ConfidenceScorer._calculate_validation_factor`. -/
def calculate_validation_factor (validation_errors : List String) : ℚ :=
  if validation_errors.length = 0 then 1
  else if validation_errors.length ≤ 2 then 85/100
  else if validation_errors.length ≤ 5 then 70/100
  else 50/100

/-- `ConfidenceScorer.calculate_confidence` (weights 0.20/0.30/0.20/0.20/
0.10); `none` models the `TypeError` raised by the consistency factor on
missing optional measurements. -/
def calculate_confidence (measurements : BodyMeasurements) (photo_count : ℤ)
    (completeness_score : ℚ) (ai_finish_reason extraction_strategy : String)
    (validation_errors : List String) : Option ConfidenceMetrics :=
  match calculate_consistency_factor measurements with
  | none => none
  | some consistency_factor =>
    let photo_factor := calculate_photo_factor photo_count
    let ai_factor := calculate_ai_factor ai_finish_reason extraction_strategy
    let completeness_factor := completeness_score
    let validation_factor := calculate_validation_factor validation_errors
    let overall_score :=
      photo_factor * (20/100) + consistency_factor * (30/100) +
      ai_factor * (20/100) + completeness_factor * (20/100) +
      validation_factor * (10/100)
    some
      { overall_score := roundTo 3 overall_score
        photo_count_factor := roundTo 3 photo_factor
        consistency_factor := roundTo 3 consistency_factor
        ai_confidence_factor := roundTo 3 ai_factor
        data_completeness_factor := roundTo 3 completeness_factor
        validation_quality_factor := roundTo 3 validation_factor
        meets_threshold := decide (overall_score ≥ min_confidence_score)
        factors_breakdown :=
          [("photo_count", intRepr photo_count ++ "/3 photos"),
           ("consistency", (get_consistency_summary measurements).getD ""),
           ("ai_finish", ai_finish_reason),
           ("extraction_method", extraction_strategy),
           ("validation_warnings", intRepr validation_errors.length),
           ("completeness_percent", fmtFixed 1 (completeness_score * 100) ++ "%")] }

/-! ## Scan assembler comparison & validation
(`services/scan_assembler.py`) -/

/-- The comparison dictionary produced by `compare_scans` (the nested
`changes` dict is flattened into the four change fields). -/
structure ScanComparison where
  time_between_scans_days : ℤ
  body_fat_change_percent : ℚ
  aesthetic_score_change : ℚ
  adonis_index_change : ℚ
  symmetry_score_change : ℚ
  body_type_changed : Bool
  progress_summary : List String
deriving DecidableEq, Repr

/-- The body-fat sentence of the progress summary. -/
def summaryBf (bf_change : ℚ) : List String :=
  if bf_change < -1 then
    ["Lost " ++ fmtFixed 1 |bf_change| ++ "% body fat - Excellent!"]
  else if bf_change > 1 then
    ["Gained " ++ fmtFixed 1 bf_change ++ "% body fat"]
  else []

/-- The aesthetic-score sentence of the progress summary. -/
def summaryScore (score_change : ℚ) : List String :=
  if score_change > 5 then
    ["Aesthetic score improved by " ++ fmtFixed 1 score_change ++ " points"]
  else if score_change < -5 then
    ["Aesthetic score decreased by " ++ fmtFixed 1 |score_change| ++ " points"]
  else []

/-- The Adonis-Index sentence of the progress summary. -/
def summaryAdonis (adonis_change : ℚ) : List String :=
  if adonis_change > 5/100 then
    ["Improved shoulder:waist ratio (better V-taper)"]
  else []

/-- The `progress_summary` list built by `compare_scans`: the threshold
sentences in program order, or the maintenance sentence when none fire. -/
def progressSummary (bf_change score_change adonis_change : ℚ) : List String :=
  if (summaryBf bf_change ++ summaryScore score_change ++
      summaryAdonis adonis_change).isEmpty then
    ["Minimal changes - maintain consistency"]
  else
    summaryBf bf_change ++ summaryScore score_change ++
      summaryAdonis adonis_change

/-- `compare_scans(current_scan, previous_scan)`. -/
def compare_scans (current_scan previous_scan : ScanResult) : ScanComparison :=
  { time_between_scans_days :=
      current_scan.timestamp - previous_scan.timestamp
    body_fat_change_percent := roundTo 1
      (current_scan.measurements.body_fat_percent -
        previous_scan.measurements.body_fat_percent)
    aesthetic_score_change := roundTo 1
      (current_scan.aesthetic_score.overall_score -
        previous_scan.aesthetic_score.overall_score)
    adonis_index_change := roundTo 2
      (current_scan.ratios.adonis_index - previous_scan.ratios.adonis_index)
    symmetry_score_change := roundTo 1
      (current_scan.ratios.symmetry_score - previous_scan.ratios.symmetry_score)
    body_type_changed :=
      decide (current_scan.aesthetic_score.body_type ≠
        previous_scan.aesthetic_score.body_type)
    progress_summary := progressSummary
      (current_scan.measurements.body_fat_percent -
        previous_scan.measurements.body_fat_percent)
      (current_scan.aesthetic_score.overall_score -
        previous_scan.aesthetic_score.overall_score)
      (current_scan.ratios.adonis_index - previous_scan.ratios.adonis_index) }

/-- The dictionary produced by `validate_scan_result`. -/
structure ValidationOutcome where
  is_valid : Bool
  errors : List String
  warnings : List String
deriving DecidableEq, Repr

/-- `validate_scan_result(scan_result)`. -/
def validate_scan_result (scan_result : ScanResult) : ValidationOutcome :=
  let errors_id : List String :=
    if scan_result.body_signature_id = "" then ["Missing body signature ID"]
    else []
  let errors_hash : List String :=
    if scan_result.composition_hash = "" then ["Missing composition hash"]
    else []
  let m := scan_result.measurements
  let warnings_waist : List String :=
    if m.waist_circumference_cm > m.chest_circumference_cm * (12/10) then
      ["Waist larger than chest - may indicate measurement error"]
    else []
  let warnings_bf : List String :=
    if m.body_fat_percent < 5 ∨ m.body_fat_percent > 50 then
      ["Body fat percentage seems extreme"]
    else []
  let warnings_conf : List String :=
    if scan_result.confidence.overall_confidence < 70/100 then
      ["Low confidence score - results may be unreliable"]
    else []
  let aesthetic := scan_result.aesthetic_score
  let total :=
    aesthetic.golden_ratio_score + aesthetic.symmetry_score +
      aesthetic.composition_score + aesthetic.posture_score
  let errors_sum : List String :=
    if |total - aesthetic.overall_score| > 1/2 then
      ["Aesthetic score components don't sum correctly"]
    else []
  let errors := errors_id ++ errors_hash ++ errors_sum
  { is_valid := errors.isEmpty
    errors := errors
    warnings := warnings_waist ++ warnings_bf ++ warnings_conf }

/-! ## Shared helper lemmas -/

theorem roundTo_intCast (d : ℕ) (z : ℤ) : roundTo d (z : ℚ) = z := by
  have h10 : (10 : ℚ) ^ d ≠ 0 := by positivity
  have : (z : ℚ) = ((z * 10 ^ d : ℤ) : ℚ) / 10 ^ d := by
    push_cast
    field_simp
  rw [this, roundTo_intCast_mul]

/-- `q` has denominator dividing `10^d`. -/
def hasDen (d : ℕ) (q : ℚ) : Prop := ∃ z : ℤ, q = (z : ℚ) / 10 ^ d

theorem hasDen_roundTo (d : ℕ) (q : ℚ) : hasDen d (roundTo d q) :=
  ⟨roundHalfEven (q * 10 ^ d), rfl⟩

theorem hasDen_intCast (d : ℕ) (z : ℤ) : hasDen d (z : ℚ) := by
  refine ⟨z * 10 ^ d, ?_⟩
  have h10 : (10 : ℚ) ^ d ≠ 0 := by positivity
  push_cast
  field_simp

theorem hasDen_add {d : ℕ} {a b : ℚ} (ha : hasDen d a) (hb : hasDen d b) :
    hasDen d (a + b) := by
  obtain ⟨za, rfl⟩ := ha
  obtain ⟨zb, rfl⟩ := hb
  exact ⟨za + zb, by push_cast; ring⟩

theorem roundTo_of_hasDen {d : ℕ} {q : ℚ} (h : hasDen d q) : roundTo d q = q := by
  obtain ⟨z, rfl⟩ := h
  exact roundTo_intCast_mul d z

/-! Golden-ratio score helper facts (shared between claims about
`calculate_golden_ratio_score` and `calculate_aesthetic_score`). -/

theorem golden_score_small {r : BodyRatios}
    (h : |r.adonis_index - 1618/1000| ≤ 5/100) :
    calculate_golden_ratio_score r = 40 := by
  unfold calculate_golden_ratio_score
  rw [if_pos h]

theorem golden_score_large {r : BodyRatios}
    (h : |r.adonis_index - 1618/1000| ≥ 1/2) :
    calculate_golden_ratio_score r = 0 := by
  unfold calculate_golden_ratio_score
  rw [if_neg (by linarith), if_pos h]

theorem golden_score_mid {r : BodyRatios}
    (h1 : 5/100 < |r.adonis_index - 1618/1000|)
    (h2 : |r.adonis_index - 1618/1000| < 1/2) :
    calculate_golden_ratio_score r =
      roundTo 1 (40 * (1 - |r.adonis_index - 1618/1000| / (1/2))) := by
  unfold calculate_golden_ratio_score
  rw [if_neg (by linarith), if_neg (by linarith)]

theorem golden_score_bounds (r : BodyRatios) :
    0 ≤ calculate_golden_ratio_score r ∧ calculate_golden_ratio_score r ≤ 40 := by
  unfold calculate_golden_ratio_score
  split
  · norm_num
  · split
    · norm_num
    · next h1 h2 =>
      push_neg at h1 h2
      constructor
      · calc (0 : ℚ) = roundTo 1 ((0 : ℤ) : ℚ) := by
              rw [roundTo_intCast]; norm_num
          _ ≤ roundTo 1 (40 * (1 - |r.adonis_index - 1618/1000| / (1/2))) := by
              apply roundTo_mono
              push_cast
              nlinarith [abs_nonneg (r.adonis_index - 1618/1000)]
      · calc roundTo 1 (40 * (1 - |r.adonis_index - 1618/1000| / (1/2)))
            ≤ roundTo 1 ((40 : ℤ) : ℚ) := by
              apply roundTo_mono
              push_cast
              nlinarith [abs_nonneg (r.adonis_index - 1618/1000)]
          _ = 40 := by rw [roundTo_intCast]; norm_num

theorem golden_score_hasDen (r : BodyRatios) :
    hasDen 1 (calculate_golden_ratio_score r) := by
  unfold calculate_golden_ratio_score
  split
  · exact hasDen_intCast 1 40
  · split
    · exact hasDen_intCast 1 0
    · exact hasDen_roundTo 1 _

/-! ## C1 -/

/-- C1: `generate_composition_hash` is a pure function of only the rounded
fields — two measurement/ratio pairs that agree on the six measurement
fields after rounding to 1 decimal and on the three ratios after rounding
to 2 decimals hash to byte-identical 6-character strings (repeat calls on
the same input are the special case `m' = m`, `r' = r`). -/
theorem hash_determinism (m m' : BodyMeasurements) (r r' : BodyRatios)
    (hchest : roundTo 1 m.chest_circumference_cm = roundTo 1 m'.chest_circumference_cm)
    (hwaist : roundTo 1 m.waist_circumference_cm = roundTo 1 m'.waist_circumference_cm)
    (hhip : roundTo 1 m.hip_circumference_cm = roundTo 1 m'.hip_circumference_cm)
    (hbicep : roundTo 1 m.bicep_circumference_cm = roundTo 1 m'.bicep_circumference_cm)
    (hthigh : roundTo 1 m.thigh_circumference_cm = roundTo 1 m'.thigh_circumference_cm)
    (hbf : roundTo 1 m.body_fat_percent = roundTo 1 m'.body_fat_percent)
    (hsw : roundTo 2 r.shoulder_to_waist_ratio = roundTo 2 r'.shoulder_to_waist_ratio)
    (hwh : roundTo 2 r.waist_to_hip_ratio = roundTo 2 r'.waist_to_hip_ratio)
    (hcw : roundTo 2 r.chest_to_waist_ratio = roundTo 2 r'.chest_to_waist_ratio) :
    generate_composition_hash m r = generate_composition_hash m' r' := by
  unfold generate_composition_hash compositionString
  rw [hchest, hwaist, hhip, hbicep, hthigh, hbf, hsw, hwh, hcw]

/-- Witness for C1 at a concrete input: raw chest values 105.04 and 105.0
round to the same value; every hypothesis holds and the hashes coincide. -/
theorem hash_determinism_witness :
    (roundTo 1 (10504/100 : ℚ) = roundTo 1 (105 : ℚ)) ∧
    generate_composition_hash
        ⟨10504/100, 80, 95, 38, 58, some 40, some 48, 125/10, none, 8, none⟩
        ⟨156/100, 156/100, 62/1000, 84/100, 131/100, 38/105, none, 85⟩ =
      generate_composition_hash
        ⟨105, 80, 95, 38, 58, some 38, some 46, 125/10, none, 7, some "high"⟩
        ⟨156/100, 158/100, 62/1000, 84/100, 131/100, 40/105, none, 90⟩ :=
  ⟨by decide,
   hash_determinism _ _ _ _ (by decide) (by decide) (by decide) (by decide)
     (by decide) (by decide) (by decide) (by decide) (by decide)⟩

/-! ## C5 -/

/-- The `sample_measurements` fixture of the repository's own
`tests/test_confidence_scorer.py`. -/
def sampleMeasurements : BodyMeasurements :=
  ⟨100, 85, 95, 35, 55, some 38, some 45, 15, none, 8, some "moderate"⟩

/-- C5 (code bug): at the failing input — the repository's own test
fixture, which passes every anatomical-consistency check, so the
consistency factor is 1.0 — scenario 4 (photo_count 1, completeness 0.5,
finish `"length"`, strategy `"error_fix"`, three validation errors) yields
overall confidence 0.714 ≥ 0.70 and `meets_threshold = True`, contradicting
the claim and the repository's own test `test_below_threshold_confidence`
(which asserts `< 0.70` and `False` on exactly these arguments). -/
theorem scenario4_failing_input :
    (calculate_confidence sampleMeasurements 1 (50/100) "length" "error_fix"
        ["Error 1", "Error 2", "Error 3"]).map
      (fun c => (c.overall_score, c.meets_threshold)) =
      some (714/1000, true) := by
  decide

/-! ## C7 -/

/-- C7: `calculate_golden_ratio_score` returns 40.0 when the deviation
from 1.618 is at most 0.05 (in particular at exactly 1.618), 0.0 when the
deviation is at least 0.5, the 1-decimal rounding of the linear
interpolation `40·(1 − deviation/0.5)` strictly in between, and always
lies in [0, 40]. -/
theorem golden_ratio_score_spec (r : BodyRatios) :
    (|r.adonis_index - 1618/1000| ≤ 5/100 → calculate_golden_ratio_score r = 40) ∧
    (r.adonis_index = 1618/1000 → calculate_golden_ratio_score r = 40) ∧
    (|r.adonis_index - 1618/1000| ≥ 1/2 → calculate_golden_ratio_score r = 0) ∧
    (5/100 < |r.adonis_index - 1618/1000| → |r.adonis_index - 1618/1000| < 1/2 →
      calculate_golden_ratio_score r =
        roundTo 1 (40 * (1 - |r.adonis_index - 1618/1000| / (1/2)))) ∧
    0 ≤ calculate_golden_ratio_score r ∧ calculate_golden_ratio_score r ≤ 40 := by
  refine ⟨fun h => golden_score_small h, fun h => ?_,
    fun h => golden_score_large h, fun h1 h2 => golden_score_mid h1 h2,
    golden_score_bounds r⟩
  apply golden_score_small
  rw [h]
  norm_num

/-- Witness for C7 at concrete inputs: an Adonis Index of exactly 1.618
scores 40, and one of 1.9 (deviation 0.282) scores the rounded linear
interpolation 17.4. -/
theorem golden_ratio_score_spec_witness :
    ((1618/1000 : ℚ) = 1618/1000 ∧
      calculate_golden_ratio_score ⟨15/10, 1618/1000, 0, 9/10, 13/10, 37/100, none, 80⟩ = 40) ∧
    ((5/100 : ℚ) < |(19/10 : ℚ) - 1618/1000| ∧ |(19/10 : ℚ) - 1618/1000| < 1/2 ∧
      calculate_golden_ratio_score ⟨15/10, 19/10, 0, 9/10, 13/10, 37/100, none, 80⟩ =
        roundTo 1 (40 * (1 - |(19/10 : ℚ) - 1618/1000| / (1/2)))) :=
  ⟨⟨rfl, (golden_ratio_score_spec _).2.1 (by decide)⟩,
   ⟨by decide, by decide,
    (golden_ratio_score_spec _).2.2.2.1 (by decide) (by decide)⟩⟩

/-! ## C3 helpers -/

theorem hasDen_num (d : ℕ) (q : ℚ) (z : ℤ) (h : q = (z : ℚ)) : hasDen d q :=
  h ▸ hasDen_intCast d z

theorem symmetry_component_bounds {r : BodyRatios}
    (h0 : 0 ≤ r.symmetry_score) (h100 : r.symmetry_score ≤ 100) :
    0 ≤ calculate_symmetry_component_score r ∧
      calculate_symmetry_component_score r ≤ 30 := by
  unfold calculate_symmetry_component_score
  constructor
  · calc (0 : ℚ) = roundTo 1 ((0 : ℤ) : ℚ) := by rw [roundTo_intCast]; norm_num
      _ ≤ roundTo 1 (r.symmetry_score / 100 * 30) := by
          apply roundTo_mono
          push_cast
          linarith
  · calc roundTo 1 (r.symmetry_score / 100 * 30) ≤ roundTo 1 ((30 : ℤ) : ℚ) := by
          apply roundTo_mono
          push_cast
          linarith
      _ = 30 := by rw [roundTo_intCast]; norm_num

theorem composition_score_bounds (m : BodyMeasurements) :
    0 ≤ calculate_composition_score m ∧ calculate_composition_score m ≤ 20 := by
  unfold calculate_composition_score
  split_ifs <;> norm_num

theorem composition_score_hasDen (m : BodyMeasurements) :
    hasDen 1 (calculate_composition_score m) := by
  unfold calculate_composition_score
  split_ifs
  · exact hasDen_num 1 _ 20 (by norm_num)
  · exact hasDen_num 1 _ 18 (by norm_num)
  · exact hasDen_num 1 _ 15 (by norm_num)
  · exact hasDen_num 1 _ 5 (by norm_num)
  · exact hasDen_num 1 _ 12 (by norm_num)

theorem posture_score_bounds {p : ℚ} (h0 : 0 ≤ p) (h10 : p ≤ 10) :
    0 ≤ calculate_posture_score p ∧ calculate_posture_score p ≤ 10 := by
  unfold calculate_posture_score
  constructor
  · calc (0 : ℚ) = roundTo 1 ((0 : ℤ) : ℚ) := by rw [roundTo_intCast]; norm_num
      _ ≤ roundTo 1 p := by apply roundTo_mono; push_cast; linarith
  · calc roundTo 1 p ≤ roundTo 1 ((10 : ℤ) : ℚ) := by
          apply roundTo_mono; push_cast; linarith
      _ = 10 := by rw [roundTo_intCast]; norm_num

/-- The error string for the sum-integrity check appears in
`validate_scan_result` output exactly when the component sum drifts from
`overall_score` by more than 0.5. -/
theorem validate_sum_error_iff (scan : ScanResult) :
    ("Aesthetic score components don't sum correctly" ∈
        (validate_scan_result scan).errors) ↔
      1/2 < |scan.aesthetic_score.golden_ratio_score +
        scan.aesthetic_score.symmetry_score +
        scan.aesthetic_score.composition_score +
        scan.aesthetic_score.posture_score -
        scan.aesthetic_score.overall_score| := by
  unfold validate_scan_result
  by_cases h1 : scan.body_signature_id = "" <;>
    by_cases h2 : scan.composition_hash = "" <;>
      by_cases h3 : 1/2 < |scan.aesthetic_score.golden_ratio_score +
          scan.aesthetic_score.symmetry_score +
          scan.aesthetic_score.composition_score +
          scan.aesthetic_score.posture_score -
          scan.aesthetic_score.overall_score| <;>
        simp [h1, h2, h3, gt_iff_lt]

/-! ## C3 -/

/-- C3: `calculate_aesthetic_score` satisfies the exact sum invariant
`golden + symmetry + composition + posture = overall` (exact in ℚ, hence
well within the claimed ±0.01), each sub-score is non-negative and
bounded (golden ≤ 40, symmetry ≤ 30, composition ≤ 20, posture ≤ 10,
under the schema ranges for `symmetry_score` and `posture_rating`); and
`validate_scan_result` reports the hard sum-integrity error exactly when
the components drift from `overall_score` by more than 0.5. -/
theorem aesthetic_score_invariant :
    (∀ (r : BodyRatios) (m : BodyMeasurements) (bt : BodyType) (conf : ℚ),
      0 ≤ r.symmetry_score → r.symmetry_score ≤ 100 →
      0 ≤ m.posture_rating → m.posture_rating ≤ 10 →
      (calculate_aesthetic_score r bt m conf).golden_ratio_score +
          (calculate_aesthetic_score r bt m conf).symmetry_score +
          (calculate_aesthetic_score r bt m conf).composition_score +
          (calculate_aesthetic_score r bt m conf).posture_score =
        (calculate_aesthetic_score r bt m conf).overall_score ∧
      (0 ≤ (calculate_aesthetic_score r bt m conf).golden_ratio_score ∧
        (calculate_aesthetic_score r bt m conf).golden_ratio_score ≤ 40) ∧
      (0 ≤ (calculate_aesthetic_score r bt m conf).symmetry_score ∧
        (calculate_aesthetic_score r bt m conf).symmetry_score ≤ 30) ∧
      (0 ≤ (calculate_aesthetic_score r bt m conf).composition_score ∧
        (calculate_aesthetic_score r bt m conf).composition_score ≤ 20) ∧
      (0 ≤ (calculate_aesthetic_score r bt m conf).posture_score ∧
        (calculate_aesthetic_score r bt m conf).posture_score ≤ 10)) ∧
    (∀ scan : ScanResult,
      ("Aesthetic score components don't sum correctly" ∈
          (validate_scan_result scan).errors) ↔
        1/2 < |scan.aesthetic_score.golden_ratio_score +
          scan.aesthetic_score.symmetry_score +
          scan.aesthetic_score.composition_score +
          scan.aesthetic_score.posture_score -
          scan.aesthetic_score.overall_score|) := by
  constructor
  · intro r m bt conf hs0 hs100 hp0 hp10
    have hsum : roundTo 1 (calculate_golden_ratio_score r +
        calculate_symmetry_component_score r +
        calculate_composition_score m +
        calculate_posture_score m.posture_rating) =
        calculate_golden_ratio_score r +
        calculate_symmetry_component_score r +
        calculate_composition_score m +
        calculate_posture_score m.posture_rating := by
      apply roundTo_of_hasDen
      exact hasDen_add (hasDen_add (hasDen_add (golden_score_hasDen r)
        (hasDen_roundTo 1 _)) (composition_score_hasDen m)) (hasDen_roundTo 1 _)
    refine ⟨?_, golden_score_bounds r, symmetry_component_bounds hs0 hs100,
      composition_score_bounds m, posture_score_bounds hp0 hp10⟩
    simp only [calculate_aesthetic_score]
    rw [hsum]
  · exact validate_sum_error_iff

/-- Witness for C3: the first conjunct applied at a concrete ratio and
measurement set (symmetry 85, posture 8), the second at a concrete scan
whose components drift by 30 from its stored overall score. -/
theorem aesthetic_score_invariant_witness :
    ((0 : ℚ) ≤ 85 ∧ (85 : ℚ) ≤ 100 ∧ (0 : ℚ) ≤ 8 ∧ (8 : ℚ) ≤ 10 ∧
      ((calculate_aesthetic_score
          ⟨156/100, 156/100, 62/1000, 84/100, 131/100, 38/105, none, 85⟩
          BodyType.VTAPER sampleMeasurements (80/100)).golden_ratio_score +
        (calculate_aesthetic_score
          ⟨156/100, 156/100, 62/1000, 84/100, 131/100, 38/105, none, 85⟩
          BodyType.VTAPER sampleMeasurements (80/100)).symmetry_score +
        (calculate_aesthetic_score
          ⟨156/100, 156/100, 62/1000, 84/100, 131/100, 38/105, none, 85⟩
          BodyType.VTAPER sampleMeasurements (80/100)).composition_score +
        (calculate_aesthetic_score
          ⟨156/100, 156/100, 62/1000, 84/100, 131/100, 38/105, none, 85⟩
          BodyType.VTAPER sampleMeasurements (80/100)).posture_score =
        (calculate_aesthetic_score
          ⟨156/100, 156/100, 62/1000, 84/100, 131/100, 38/105, none, 85⟩
          BodyType.VTAPER sampleMeasurements (80/100)).overall_score)) :=
  ⟨by norm_num, by norm_num, by norm_num, by norm_num,
   ((aesthetic_score_invariant.1 _ sampleMeasurements BodyType.VTAPER (80/100)
      (by norm_num) (by norm_num) (by decide) (by decide))).1⟩

/-! ## C4 helpers: the stable descending sort returns a maximal element -/

/-- The head of `sortDesc` on a non-empty list is a member achieving the
maximal confidence. -/
theorem sortDesc_head_max (l : List (BodyType × ℚ)) (hne : l ≠ []) :
    ∃ hd tl, sortDesc l = hd :: tl ∧ hd ∈ l ∧ ∀ c ∈ l, c.2 ≤ hd.2 := by
  induction l with
  | nil => exact absurd rfl hne
  | cons x xs ih =>
    rcases List.eq_nil_or_concat xs with hxs | _
    · subst hxs
      exact ⟨x, [], rfl, List.mem_singleton_self x, by
        intro c hc
        simp only [List.mem_singleton] at hc
        simp [hc]⟩
    · have hxs : xs ≠ [] := by
        rintro rfl
        simp_all
      obtain ⟨hd, tl, hsort, hmem, hmax⟩ := ih hxs
      unfold sortDesc at hsort ⊢
      simp only [List.foldr_cons, hsort]
      unfold insertDesc
      split
      · next hge =>
        exact ⟨x, hd :: tl, rfl, List.mem_cons_self x xs, by
          intro c hc
          rcases List.mem_cons.mp hc with rfl | hc
          · exact le_refl _
          · exact (hmax c hc).trans hge⟩
      · next hlt =>
        push_neg at hlt
        exact ⟨hd, insertDesc x tl, rfl, List.mem_cons_of_mem x hmem, by
          intro c hc
          rcases List.mem_cons.mp hc with rfl | hc
          · exact hlt.le
          · exact hmax c hc⟩

/-! ## C4 -/

/-- C4: `classify_body_type` returns a fired `(BodyType, confidence)`
candidate of maximal confidence when at least one rule fires (ties broken
by the stable sort, i.e. rule order), and `(Rectangular, 0.60)` when no
rule fires; determinism is immediate since the embedding is a function of
`ratios` and `measurements` alone. -/
theorem classify_body_type_spec (r : BodyRatios) (m : BodyMeasurements) :
    (classifications r m = [] →
      classify_body_type r m = (BodyType.RECTANGULAR, 60/100)) ∧
    (classifications r m ≠ [] →
      classify_body_type r m ∈ classifications r m ∧
      ∀ c ∈ classifications r m, c.2 ≤ (classify_body_type r m).2) := by
  constructor
  · intro h
    unfold classify_body_type
    rw [h]
    rfl
  · intro h
    obtain ⟨hd, tl, hsort, hmem, hmax⟩ := sortDesc_head_max _ h
    unfold classify_body_type
    rw [hsort]
    exact ⟨hmem, hmax⟩

/-- Witness for C4: concrete ratios firing both V-Taper rules' candidate
(confidence 0.80) and the Apple rule (0.80); the result is the first
maximal candidate, V-Taper at 0.80.  Also a no-rule input giving the
Rectangular default. -/
theorem classify_body_type_spec_witness :
    (classifications ⟨15/10, 15/10, 0, 96/100, 135/100, 37/100, none, 70⟩
        ⟨100, 96, 99, 35, 55, some 38, some 45, 25, none, 8, none⟩ ≠ [] ∧
      classify_body_type ⟨15/10, 15/10, 0, 96/100, 135/100, 37/100, none, 70⟩
        ⟨100, 96, 99, 35, 55, some 38, some 45, 25, none, 8, none⟩ ∈
        classifications ⟨15/10, 15/10, 0, 96/100, 135/100, 37/100, none, 70⟩
          ⟨100, 96, 99, 35, 55, some 38, some 45, 25, none, 8, none⟩) ∧
    (classifications ⟨13/10, 13/10, 0, 12/10, 11/10, 37/100, none, 40⟩
        sampleMeasurements = [] ∧
      classify_body_type ⟨13/10, 13/10, 0, 12/10, 11/10, 37/100, none, 40⟩
        sampleMeasurements = (BodyType.RECTANGULAR, 60/100)) :=
  ⟨⟨by decide,
    ((classify_body_type_spec ⟨15/10, 15/10, 0, 96/100, 135/100, 37/100, none, 70⟩
      ⟨100, 96, 99, 35, 55, some 38, some 45, 25, none, 8, none⟩).2 (by decide)).1⟩,
   ⟨by decide,
    (classify_body_type_spec ⟨13/10, 13/10, 0, 12/10, 11/10, 37/100, none, 40⟩
      sampleMeasurements).1 (by decide)⟩⟩

/-! ## C10 helpers -/

/-- The total of the five additive consistency deductions, given the
dereferenced optional fields. -/
def consistencyPenalties (m : BodyMeasurements) (calf shoulder : ℚ) : ℚ :=
  (if m.waist_circumference_cm > m.chest_circumference_cm then 10/100 else 0) +
  (if m.muscle_definition = some "high" ∧ m.body_fat_percent > 20 then 15/100
    else if m.muscle_definition = some "low" ∧ m.body_fat_percent < 10 then 15/100
    else 0) +
  (if m.bicep_circumference_cm > m.thigh_circumference_cm then 25/100 else 0) +
  (if calf > m.thigh_circumference_cm then 20/100 else 0) +
  (if shoulder / m.chest_circumference_cm < 30/100 ∨
      shoulder / m.chest_circumference_cm > 80/100 then 15/100 else 0)

theorem consistencyPenalties_nonneg (m : BodyMeasurements) (calf shoulder : ℚ) :
    0 ≤ consistencyPenalties m calf shoulder := by
  unfold consistencyPenalties
  split_ifs <;> norm_num

/-! ## C10 -/

/-- C10 (implicit): the consistency factor is only total when the optional
measurement fields are present.  For schema-valid measurements with
`shoulder_width_cm = None` (or `calf_circumference_cm = None`) the Python
comparisons raise `TypeError` (modelled as `none`); whenever both fields
are present the factor is `max(0, 1 − additive penalties)`, which lies in
[0, 1]. -/
theorem consistency_factor_partiality :
    (∃ m : BodyMeasurements, validBodyMeasurements m ∧
      m.shoulder_width_cm = none ∧ calculate_consistency_factor m = none) ∧
    (∃ m : BodyMeasurements, validBodyMeasurements m ∧
      m.calf_circumference_cm = none ∧ calculate_consistency_factor m = none) ∧
    (∀ (m : BodyMeasurements) (calf shoulder : ℚ),
      m.calf_circumference_cm = some calf →
      m.shoulder_width_cm = some shoulder →
      calculate_consistency_factor m =
        some (max 0 (1 - consistencyPenalties m calf shoulder)) ∧
      0 ≤ max 0 (1 - consistencyPenalties m calf shoulder) ∧
      max 0 (1 - consistencyPenalties m calf shoulder) ≤ 1) := by
  refine ⟨⟨⟨100, 85, 95, 35, 55, some 38, none, 15, none, 8, some "moderate"⟩,
      by decide, rfl, by decide⟩,
    ⟨⟨100, 85, 95, 35, 55, none, some 45, 15, none, 8, some "moderate"⟩,
      by decide, rfl, by decide⟩, ?_⟩
  intro m calf shoulder hcalf hshoulder
  refine ⟨?_, le_max_left 0 _, max_le (by norm_num)
    (by linarith [consistencyPenalties_nonneg m calf shoulder])⟩
  unfold calculate_consistency_factor consistencyPenalties
  rw [hcalf, hshoulder]
  ring_nf

/-- Witness for C10's universally quantified part: on the repository's own
test fixture every check passes, so the factor is `some 1`. -/
theorem consistency_factor_partiality_witness :
    sampleMeasurements.calf_circumference_cm = some 38 ∧
    sampleMeasurements.shoulder_width_cm = some 45 ∧
    calculate_consistency_factor sampleMeasurements =
      some (max 0 (1 - consistencyPenalties sampleMeasurements 38 45)) :=
  ⟨rfl, rfl,
   (consistency_factor_partiality.2.2 sampleMeasurements 38 45 rfl rfl).1⟩

/-! ## C8 helpers: character content of the summary sentences -/

theorem fmtFixed_chars (d : ℕ) (q : ℚ) :
    ∀ c ∈ (fmtFixed d q).toList, c.isDigit = true ∨ c = '.' ∨ c = '-' := by
  intro c hc
  unfold fmtFixed at hc
  simp only [String.toList, String.data_append] at hc
  rcases List.mem_append.mp hc with hc | hc
  · rcases List.mem_append.mp hc with hc | hc
    · rcases List.mem_append.mp hc with hc | hc
      · split at hc <;> simp_all
      · exact Or.inl (natDigits_all_digit _ c hc)
    · simp_all
  · unfold padZeros at hc
    rcases List.mem_append.mp hc with hc | hc
    · rw [List.eq_of_mem_replicate hc]
      exact Or.inl rfl
    · exact Or.inl (natDigits_all_digit _ c hc)

theorem noE_of_fmt_concat {pre post : String} (d : ℕ) (q : ℚ)
    (hpre : 'E' ∉ pre.toList) (hpost : 'E' ∉ post.toList) :
    'E' ∉ (pre ++ fmtFixed d q ++ post).toList := by
  intro hc
  simp only [String.toList, String.data_append] at hc
  rcases List.mem_append.mp hc with hc | hc
  · rcases List.mem_append.mp hc with hc | hc
    · exact hpre hc
    · rcases fmtFixed_chars d q 'E' hc with h | h | h <;> simp_all
  · exact hpost hc

theorem not_infix_excellent {s : String} (h : 'E' ∉ s.toList) :
    ¬ ("Excellent".toList <:+: s.toList) := by
  intro hinf
  exact h (hinf.subset (by decide))

theorem infix_excellent_lost (q : ℚ) :
    "Excellent".toList <:+:
      ("Lost " ++ fmtFixed 1 q ++ "% body fat - Excellent!").toList := by
  have h : "Excellent".toList <:+: ("% body fat - Excellent!").toList := by decide
  have hsuf : ("% body fat - Excellent!").toList <:+:
      ("Lost " ++ fmtFixed 1 q ++ "% body fat - Excellent!").toList := by
    simp only [String.toList, String.data_append]
    exact (List.suffix_append _ _).isInfix
  exact h.trans hsuf

/-- When the body-fat delta is not below −1, no summary entry contains a
capital `E`. -/
theorem progressSummary_noE {bf sc ad : ℚ} (hbf : ¬ bf < -1) :
    ∀ s ∈ progressSummary bf sc ad, 'E' ∉ s.toList := by
  intro s hs
  unfold progressSummary at hs
  split at hs
  · simp only [List.mem_singleton] at hs
    subst hs
    decide
  · rcases List.mem_append.mp hs with hs' | hs'
    · rcases List.mem_append.mp hs' with hs'' | hs''
      · unfold summaryBf at hs''
        rw [if_neg hbf] at hs''
        split at hs''
        · simp only [List.mem_singleton] at hs''
          subst hs''
          exact noE_of_fmt_concat 1 bf (by decide) (by decide)
        · simp at hs''
      · unfold summaryScore at hs''
        split at hs''
        · simp only [List.mem_singleton] at hs''
          subst hs''
          exact noE_of_fmt_concat 1 sc (by decide) (by decide)
        · split at hs''
          · simp only [List.mem_singleton] at hs''
            subst hs''
            exact noE_of_fmt_concat 1 |sc| (by decide) (by decide)
          · simp at hs''
    · unfold summaryAdonis at hs'
      split at hs'
      · simp only [List.mem_singleton] at hs'
        subst hs'
        decide
      · simp at hs'

/-- An entry containing `"Excellent"` exists iff the body-fat delta is
strictly below −1. -/
theorem progressSummary_excellent_iff (bf sc ad : ℚ) :
    (∃ s ∈ progressSummary bf sc ad, "Excellent".toList <:+: s.toList) ↔
      bf < -1 := by
  constructor
  · rintro ⟨s, hs, hinf⟩
    by_contra hbf
    exact not_infix_excellent (progressSummary_noE hbf s hs) hinf
  · intro hbf
    refine ⟨"Lost " ++ fmtFixed 1 |bf| ++ "% body fat - Excellent!", ?_,
      infix_excellent_lost _⟩
    unfold progressSummary summaryBf
    rw [if_pos hbf]
    simp

theorem progressSummary_length (bf sc ad : ℚ) :
    1 ≤ (progressSummary bf sc ad).length ∧
      (progressSummary bf sc ad).length ≤ 3 := by
  have h1 : (summaryBf bf).length ≤ 1 := by
    unfold summaryBf
    split
    · simp
    · split <;> simp
  have h2 : (summaryScore sc).length ≤ 1 := by
    unfold summaryScore
    split
    · simp
    · split <;> simp
  have h3 : (summaryAdonis ad).length ≤ 1 := by
    unfold summaryAdonis
    split <;> simp
  unfold progressSummary
  split
  · simp
  · next hne =>
    have hpos : 0 < (summaryBf bf ++ summaryScore sc ++ summaryAdonis ad).length := by
      cases hl : summaryBf bf ++ summaryScore sc ++ summaryAdonis ad with
      | nil => rw [hl] at hne; simp at hne
      | cons a t => simp [hl]
    constructor
    · omega
    · simp only [List.length_append] at hpos ⊢
      omega

/-! ## C8 -/

/-- C8: `compare_scans` returns `body_fat_change_percent` equal to the
1-decimal rounding of (current − previous) body-fat percent, contains a
progress-summary entry with the substring `"Excellent"` exactly when the
raw body-fat delta is strictly below −1, and always emits between 1 and 3
summary sentences.  The inputs are never modified — the embedding is a
pure function of the two `ScanResult` values. -/
theorem compare_scans_spec (cur prev : ScanResult) :
    (compare_scans cur prev).body_fat_change_percent =
      roundTo 1 (cur.measurements.body_fat_percent -
        prev.measurements.body_fat_percent) ∧
    ((∃ s ∈ (compare_scans cur prev).progress_summary,
        "Excellent".toList <:+: s.toList) ↔
      cur.measurements.body_fat_percent - prev.measurements.body_fat_percent
        < -1) ∧
    1 ≤ (compare_scans cur prev).progress_summary.length ∧
    (compare_scans cur prev).progress_summary.length ≤ 3 := by
  refine ⟨rfl, ?_, ?_⟩
  · exact progressSummary_excellent_iff _ _ _
  · exact progressSummary_length _ _ _

/-! ## C2/C9 helpers: maximal munch on explicit decompositions -/

theorem takeWhile_all_append (p : Char → Bool) (l1 l2 : List Char)
    (h1 : ∀ c ∈ l1, p c = true)
    (h2 : ∀ c t, l2 = c :: t → p c = false) :
    (l1 ++ l2).takeWhile p = l1 ∧ (l1 ++ l2).dropWhile p = l2 := by
  induction l1 with
  | nil =>
    simp only [List.nil_append]
    cases l2 with
    | nil => simp
    | cons c t =>
      have hc := h2 c t rfl
      simp [List.takeWhile_cons, List.dropWhile_cons, hc]
  | cons a l1' ih =>
    have hpa : p a = true := h1 a (List.mem_cons_self a l1')
    have ih' := ih (fun c hc => h1 c (List.mem_cons_of_mem a hc))
    simp only [List.cons_append, List.takeWhile_cons, List.dropWhile_cons,
      hpa, if_true]
    exact ⟨by rw [ih'.1], by rw [ih'.2]⟩

theorem mem_takeWhile {p : Char → Bool} {l : List Char} :
    ∀ c ∈ l.takeWhile p, p c = true := by
  induction l with
  | nil => simp
  | cons a t ih =>
    intro c hc
    rw [List.takeWhile_cons] at hc
    by_cases hpa : p a = true
    · rw [if_pos hpa] at hc
      rcases List.mem_cons.mp hc with rfl | hc
      · exact hpa
      · exact ih c hc
    · rw [if_neg hpa] at hc
      simp at hc

theorem dropWhile_head_false {p : Char → Bool} {l : List Char} {c : Char}
    {t : List Char} (h : l.dropWhile p = c :: t) : p c = false := by
  induction l with
  | nil => simp at h
  | cons a l' ih =>
    rw [List.dropWhile_cons] at h
    by_cases hpa : p a = true
    · rw [if_pos hpa] at h
      exact ih h
    · rw [if_neg hpa] at h
      obtain ⟨rfl, -⟩ := List.cons.injEq .. ▸ h
      · simpa using hpa

/-- The unique list decomposition described by the anchored regex
`^([A-Za-z]+)-BF(\d+\.\d+)-([A-F0-9]{6})-AI(\d+\.\d+)$`; `tail` is
the leftover `re.match`'s `$` tolerates (empty, or one `'\n'`). -/
def sigAssemble (bt d1 d2 h d3 d4 tail : List Char) : List Char :=
  bt ++ ('-' :: 'B' :: 'F' ::
    (d1 ++ ('.' :: (d2 ++ ('-' ::
      (h ++ ('-' :: 'A' :: 'I' :: (d3 ++ ('.' :: (d4 ++ tail))))))))))

/-- Declarative semantics of the parse regex under Python's `re.match`:
the string decomposes into a non-empty ASCII-letter run, `-BF`, two
non-empty Unicode-digit runs around `.`, `-`, six `[A-F0-9]` characters,
`-AI`, and two non-empty Unicode-digit runs around `.`, followed by
nothing or by a single `'\n'` (which `$` matches before). -/
def sigPatternMatches (s : String) : Prop :=
  ∃ bt d1 d2 h d3 d4 tail : List Char,
    s.toList = sigAssemble bt d1 d2 h d3 d4 tail ∧
    (tail = [] ∨ tail = ['\n']) ∧
    bt ≠ [] ∧ (∀ c ∈ bt, c.isAlpha = true) ∧
    d1 ≠ [] ∧ (∀ c ∈ d1, isPyDigit c = true) ∧
    d2 ≠ [] ∧ (∀ c ∈ d2, isPyDigit c = true) ∧
    h.length = 6 ∧ (∀ c ∈ h, isHexUpperDigit c = true) ∧
    d3 ≠ [] ∧ (∀ c ∈ d3, isPyDigit c = true) ∧
    d4 ≠ [] ∧ (∀ c ∈ d4, isPyDigit c = true)

/-- Forward direction: on a well-formed decomposition the matcher
recovers exactly the four capture groups. -/
theorem sigRegexMatch_assemble (bt d1 d2 h d3 d4 tail : List Char)
    (htail : tail = [] ∨ tail = ['\n'])
    (hbt : bt ≠ []) (hbtA : ∀ c ∈ bt, c.isAlpha = true)
    (hd1 : d1 ≠ []) (hd1D : ∀ c ∈ d1, isPyDigit c = true)
    (hd2 : d2 ≠ []) (hd2D : ∀ c ∈ d2, isPyDigit c = true)
    (hh : h.length = 6) (hhH : ∀ c ∈ h, isHexUpperDigit c = true)
    (hd3 : d3 ≠ []) (hd3D : ∀ c ∈ d3, isPyDigit c = true)
    (hd4 : d4 ≠ []) (hd4D : ∀ c ∈ d4, isPyDigit c = true) :
    sigRegexMatch (sigAssemble bt d1 d2 h d3 d4 tail) =
      some (bt, d1, d2, h, d3, d4) := by
  obtain ⟨c1, c2, c3, c4, c5, c6, rfl⟩ :
      ∃ c1 c2 c3 c4 c5 c6, h = [c1, c2, c3, c4, c5, c6] := by
    match h, hh with
    | [a, b, c, d, e, f], _ => exact ⟨a, b, c, d, e, f, rfl⟩
  obtain ⟨b0, bt', rfl⟩ := List.exists_cons_of_ne_nil hbt
  obtain ⟨x1, d1', rfl⟩ := List.exists_cons_of_ne_nil hd1
  obtain ⟨x2, d2', rfl⟩ := List.exists_cons_of_ne_nil hd2
  obtain ⟨x3, d3', rfl⟩ := List.exists_cons_of_ne_nil hd3
  obtain ⟨x4, d4', rfl⟩ := List.exists_cons_of_ne_nil hd4
  have hx1 : isHexUpperDigit c1 = true := hhH c1 (by simp)
  have hx2 : isHexUpperDigit c2 = true := hhH c2 (by simp)
  have hx3 : isHexUpperDigit c3 = true := hhH c3 (by simp)
  have hx4 : isHexUpperDigit c4 = true := hhH c4 (by simp)
  have hx5 : isHexUpperDigit c5 = true := hhH c5 (by simp)
  have hx6 : isHexUpperDigit c6 = true := hhH c6 (by simp)
  have e1 := takeWhile_all_append Char.isAlpha (b0 :: bt')
    ('-' :: 'B' :: 'F' :: ((x1 :: d1') ++ ('.' :: ((x2 :: d2') ++
      ('-' :: ([c1, c2, c3, c4, c5, c6] ++ ('-' :: 'A' :: 'I' ::
        ((x3 :: d3') ++ ('.' :: ((x4 :: d4') ++ tail))))))))))
    hbtA (by intro c t hct; injection hct with h1 _; subst h1; decide)
  have e2 := takeWhile_all_append isPyDigit (x1 :: d1')
    ('.' :: ((x2 :: d2') ++ ('-' :: ([c1, c2, c3, c4, c5, c6] ++
      ('-' :: 'A' :: 'I' :: ((x3 :: d3') ++ ('.' :: ((x4 :: d4') ++ tail))))))))
    hd1D (by intro c t hct; injection hct with h1 _; subst h1; decide)
  have e3 := takeWhile_all_append isPyDigit (x2 :: d2')
    ('-' :: ([c1, c2, c3, c4, c5, c6] ++
      ('-' :: 'A' :: 'I' :: ((x3 :: d3') ++ ('.' :: ((x4 :: d4') ++ tail))))))
    hd2D (by intro c t hct; injection hct with h1 _; subst h1; decide)
  have e4 := takeWhile_all_append isPyDigit (x3 :: d3')
    ('.' :: ((x4 :: d4') ++ tail))
    hd3D (by intro c t hct; injection hct with h1 _; subst h1; decide)
  have htailHead : ∀ c t, tail = c :: t → isPyDigit c = false := by
    rcases htail with rfl | rfl
    · intro c t hct
      simp at hct
    · intro c t hct
      injection hct with h1 _
      subst h1
      decide
  have e5 := takeWhile_all_append isPyDigit (x4 :: d4') tail hd4D htailHead
  simp only [List.cons_append, List.nil_append] at e1 e2 e3 e4 e5
  rcases htail with rfl | rfl
  · simp only [List.append_nil] at e1 e2 e3 e4 e5
    simp only [sigAssemble, sigRegexMatch, List.cons_append, List.nil_append,
      List.append_nil,
      e1.1, e1.2, e2.1, e2.2, e3.1, e3.2, e4.1, e4.2, e5.1, e5.2,
      hx1, hx2, hx3, hx4, hx5, hx6, Bool.and_self, if_true]
  · simp only [sigAssemble, sigRegexMatch, List.cons_append, List.nil_append,
      e1.1, e1.2, e2.1, e2.2, e3.1, e3.2, e4.1, e4.2, e5.1, e5.2,
      hx1, hx2, hx3, hx4, hx5, hx6, Bool.and_self, if_true]

/-- Backward direction: a successful match exposes a well-formed
decomposition with the returned capture groups. -/
theorem sigRegexMatch_some {l : List Char} {bt d1 d2 h d3 d4 : List Char}
    (hp : sigRegexMatch l = some (bt, d1, d2, h, d3, d4)) :
    ∃ tail : List Char, (tail = [] ∨ tail = ['\n']) ∧
    l = sigAssemble bt d1 d2 h d3 d4 tail ∧
    bt ≠ [] ∧ (∀ c ∈ bt, c.isAlpha = true) ∧
    d1 ≠ [] ∧ (∀ c ∈ d1, isPyDigit c = true) ∧
    d2 ≠ [] ∧ (∀ c ∈ d2, isPyDigit c = true) ∧
    h.length = 6 ∧ (∀ c ∈ h, isHexUpperDigit c = true) ∧
    d3 ≠ [] ∧ (∀ c ∈ d3, isPyDigit c = true) ∧
    d4 ≠ [] ∧ (∀ c ∈ d4, isPyDigit c = true) := by
  unfold sigRegexMatch at hp
  split at hp
  case _ b0 bt' r2 heqT heqD =>
    split at hp
    case _ x1 d1' r4 heqT2 heqD2 =>
      split at hp
      case _ x2 d2' c1 c2 c3 c4 c5 c6 r8 heqT3 heqD3 =>
        split at hp
        case isTrue hhex =>
          split at hp
          case _ x3 d3' r10 heqT4 heqD4 =>
            split at hp
            case _ x4 d4' heqT5 heqD5 =>
              simp only [Option.some.injEq, Prod.mk.injEq] at hp
              obtain ⟨hbt, hd1, hd2, hh, hd3, hd4⟩ := hp
              subst hbt hd1 hd2 hh hd3 hd4
              simp only [Bool.and_eq_true] at hhex
              refine ⟨[], Or.inl rfl, ?_,
                by simp, by rw [← heqT]; exact mem_takeWhile,
                by simp, by rw [← heqT2]; exact mem_takeWhile,
                by simp, by rw [← heqT3]; exact mem_takeWhile,
                rfl, ?_,
                by simp, by rw [← heqT4]; exact mem_takeWhile,
                by simp, by rw [← heqT5]; exact mem_takeWhile⟩
              · have hl := (@List.takeWhile_append_dropWhile _ Char.isAlpha l).symm
                rw [heqD] at hl
                have hr2 := (@List.takeWhile_append_dropWhile _ isPyDigit r2).symm
                rw [heqD2] at hr2
                have hr4 := (@List.takeWhile_append_dropWhile _ isPyDigit r4).symm
                rw [heqD3] at hr4
                have hr8 := (@List.takeWhile_append_dropWhile _ isPyDigit r8).symm
                rw [heqD4] at hr8
                have hr10 := (@List.takeWhile_append_dropWhile _ isPyDigit r10).symm
                rw [heqD5, List.append_nil] at hr10
                rw [hl, hr2, hr4, hr8, hr10, heqT, heqT2, heqT3, heqT4, heqT5]
                simp [sigAssemble]
              · intro c hc
                simp only [List.mem_cons, List.not_mem_nil, or_false] at hc
                rcases hc with rfl | rfl | rfl | rfl | rfl | rfl
                · exact hhex.1.1.1.1.1
                · exact hhex.1.1.1.1.2
                · exact hhex.1.1.1.2
                · exact hhex.1.1.2
                · exact hhex.1.2
                · exact hhex.2
            case _ x4 d4' heqT5 heqD5 =>
              simp only [Option.some.injEq, Prod.mk.injEq] at hp
              obtain ⟨hbt, hd1, hd2, hh, hd3, hd4⟩ := hp
              subst hbt hd1 hd2 hh hd3 hd4
              simp only [Bool.and_eq_true] at hhex
              refine ⟨['\n'], Or.inr rfl, ?_,
                by simp, by rw [← heqT]; exact mem_takeWhile,
                by simp, by rw [← heqT2]; exact mem_takeWhile,
                by simp, by rw [← heqT3]; exact mem_takeWhile,
                rfl, ?_,
                by simp, by rw [← heqT4]; exact mem_takeWhile,
                by simp, by rw [← heqT5]; exact mem_takeWhile⟩
              · have hl := (@List.takeWhile_append_dropWhile _ Char.isAlpha l).symm
                rw [heqD] at hl
                have hr2 := (@List.takeWhile_append_dropWhile _ isPyDigit r2).symm
                rw [heqD2] at hr2
                have hr4 := (@List.takeWhile_append_dropWhile _ isPyDigit r4).symm
                rw [heqD3] at hr4
                have hr8 := (@List.takeWhile_append_dropWhile _ isPyDigit r8).symm
                rw [heqD4] at hr8
                have hr10 := (@List.takeWhile_append_dropWhile _ isPyDigit r10).symm
                rw [heqD5] at hr10
                rw [hl, hr2, hr4, hr8, hr10, heqT, heqT2, heqT3, heqT4, heqT5]
                simp [sigAssemble]
              · intro c hc
                simp only [List.mem_cons, List.not_mem_nil, or_false] at hc
                rcases hc with rfl | rfl | rfl | rfl | rfl | rfl
                · exact hhex.1.1.1.1.1
                · exact hhex.1.1.1.1.2
                · exact hhex.1.1.1.2
                · exact hhex.1.1.2
                · exact hhex.1.2
                · exact hhex.2
            case _ => simp at hp
          case _ => simp at hp
        case isFalse => simp at hp
      case _ => simp at hp
    case _ => simp at hp
  case _ => simp at hp

theorem padZeros_all_digit (d : ℕ) {l : List Char}
    (h : ∀ c ∈ l, c.isDigit = true) : ∀ c ∈ padZeros d l, c.isDigit = true := by
  intro c hc
  unfold padZeros at hc
  rcases List.mem_append.mp hc with hc | hc
  · rw [List.eq_of_mem_replicate hc]
    rfl
  · exact h c hc

theorem padZeros_length {d : ℕ} {l : List Char} (h : l.length ≤ d) :
    (padZeros d l).length = d := by
  simp [padZeros]
  omega

theorem padZeros_ne_nil {d : ℕ} {l : List Char} (hd : 1 ≤ d)
    (h : l.length ≤ d) : padZeros d l ≠ [] := by
  intro hnil
  have := padZeros_length h
  rw [hnil] at this
  simp at this
  omega

/-- `f"{n/10^d:.df}"` on an exact non-negative `d`-decimal value renders
the integer part and the `d`-padded fractional part. -/
theorem fmtFixed_natCast_div (d n : ℕ) :
    (fmtFixed d ((n : ℚ) / 10 ^ d)).toList =
      natDigits (n / 10 ^ d) ++ ('.' :: padZeros d (natDigits (n % 10 ^ d))) := by
  have hval : (n : ℚ) / 10 ^ d * 10 ^ d = ((n : ℤ) : ℚ) := by
    have h10 : (10 : ℚ) ^ d ≠ 0 := by positivity
    push_cast
    field_simp
  have hrhe : roundHalfEven ((n : ℚ) / 10 ^ d * 10 ^ d) = (n : ℤ) := by
    rw [hval, roundHalfEven_intCast]
  have hneg : ¬ (roundHalfEven ((n : ℚ) / 10 ^ d * 10 ^ d) < 0) := by
    rw [hrhe]
    exact Int.not_lt.mpr (Int.natCast_nonneg n)
  unfold fmtFixed
  rw [if_neg hneg, hrhe]
  simp [String.toList, String.data_append, Int.natAbs_ofNat]

/-- Parsing the rendered digit runs recovers the exact value. -/
theorem decimalValue_fmt (d n : ℕ) (hd : 1 ≤ d) :
    decimalValue (natDigits (n / 10 ^ d))
      (padZeros d (natDigits (n % 10 ^ d))) = (n : ℚ) / 10 ^ d := by
  have hlt : n % 10 ^ d < 10 ^ d := Nat.mod_lt _ (by positivity)
  have hlen : (natDigits (n % 10 ^ d)).length ≤ d :=
    natDigits_length_le _ _ hlt hd
  unfold decimalValue
  rw [digitsToNat_natDigits, digitsToNat_padZeros, digitsToNat_natDigits,
    padZeros_length hlen]
  have h10 : (10 : ℚ) ^ d ≠ 0 := by positivity
  rw [eq_div_iff h10, add_mul, div_mul_cancel₀ _ h10]
  have hdm : ((10 : ℚ) ^ d * ((n / 10 ^ d : ℕ) : ℚ) + ((n % 10 ^ d : ℕ) : ℚ)) =
      (n : ℚ) := by
    exact_mod_cast Nat.div_add_mod n (10 ^ d)
  linarith

/-! ## C9 -/

/-- C9: `parse_body_signature_id` returns `None` exactly on the strings
that fail the regex `^([A-Za-z]+)-BF(\d+\.\d+)-([A-F0-9]{6})-AI(\d+\.\d+)$`
under Python's `re.match` semantics — `\d` any Unicode decimal digit and
`$` matching at the end or before one trailing `'\n'` — (never raising:
the embedding is a total function into `Option`), and on every matching
string it returns all four recovered components. -/
theorem parse_malformed_id_spec :
    (∀ s : String, parse_body_signature_id s = none ↔ ¬ sigPatternMatches s) ∧
    (∀ (bt d1 d2 h d3 d4 tail : List Char) (s : String),
      s.toList = sigAssemble bt d1 d2 h d3 d4 tail →
      (tail = [] ∨ tail = ['\n']) →
      bt ≠ [] → (∀ c ∈ bt, c.isAlpha = true) →
      d1 ≠ [] → (∀ c ∈ d1, isPyDigit c = true) →
      d2 ≠ [] → (∀ c ∈ d2, isPyDigit c = true) →
      h.length = 6 → (∀ c ∈ h, isHexUpperDigit c = true) →
      d3 ≠ [] → (∀ c ∈ d3, isPyDigit c = true) →
      d4 ≠ [] → (∀ c ∈ d4, isPyDigit c = true) →
      parse_body_signature_id s =
        some ⟨String.mk bt, decimalValue d1 d2, String.mk h,
          decimalValue d3 d4, s⟩) := by
  constructor
  · intro s
    constructor
    · intro hnone hmatch
      obtain ⟨bt, d1, d2, h, d3, d4, tail, hdec, htail, h1, h2, h3, h4, h5,
        h6, h7, h8, h9, h10, h11, h12⟩ := hmatch
      have hfwd := sigRegexMatch_assemble bt d1 d2 h d3 d4 tail htail
        h1 h2 h3 h4 h5 h6 h7 h8 h9 h10 h11 h12
      unfold parse_body_signature_id at hnone
      rw [hdec, hfwd] at hnone
      simp at hnone
    · intro hnm
      unfold parse_body_signature_id
      cases hres : sigRegexMatch s.toList with
      | none => rfl
      | some res =>
        obtain ⟨bt, d1, d2, h, d3, d4⟩ := res
        obtain ⟨tail, htail, hdec, hwf⟩ := sigRegexMatch_some hres
        exact absurd ⟨bt, d1, d2, h, d3, d4, tail, hdec, htail, hwf⟩ hnm
  · intro bt d1 d2 h d3 d4 tail s hdec htail h1 h2 h3 h4 h5 h6 h7 h8 h9
      h10 h11 h12
    have hfwd := sigRegexMatch_assemble bt d1 d2 h d3 d4 tail htail
      h1 h2 h3 h4 h5 h6 h7 h8 h9 h10 h11 h12
    unfold parse_body_signature_id
    rw [hdec, hfwd]

/-- Witness for C9 at concrete strings: a well-formed ID parses to its
components (with or without the trailing newline `$` tolerates), and a
malformed one returns `none`. -/
theorem parse_malformed_id_spec_witness :
    ("VTaper-BF12.5-A3F7C2-AI1.54".toList =
      sigAssemble ['V', 'T', 'a', 'p', 'e', 'r'] ['1', '2'] ['5']
        ['A', '3', 'F', '7', 'C', '2'] ['1'] ['5', '4'] []) ∧
    parse_body_signature_id "VTaper-BF12.5-A3F7C2-AI1.54" =
      some ⟨String.mk ['V', 'T', 'a', 'p', 'e', 'r'],
        decimalValue ['1', '2'] ['5'],
        String.mk ['A', '3', 'F', '7', 'C', '2'],
        decimalValue ['1'] ['5', '4'], "VTaper-BF12.5-A3F7C2-AI1.54"⟩ ∧
    parse_body_signature_id "VTaper-BF12.5-A3F7C2-AI1.54\n" =
      some ⟨String.mk ['V', 'T', 'a', 'p', 'e', 'r'],
        decimalValue ['1', '2'] ['5'],
        String.mk ['A', '3', 'F', '7', 'C', '2'],
        decimalValue ['1'] ['5', '4'], "VTaper-BF12.5-A3F7C2-AI1.54\n"⟩ ∧
    parse_body_signature_id "not-a-valid-id" = none :=
  ⟨by decide,
   parse_malformed_id_spec.2 _ _ _ _ _ _ [] _ (by decide) (Or.inl rfl)
     (by decide) (by decide) (by decide) (by decide) (by decide) (by decide)
     (by decide) (by decide) (by decide) (by decide) (by decide) (by decide),
   parse_malformed_id_spec.2 _ _ _ _ _ _ ['\n'] _ (by decide) (Or.inr rfl)
     (by decide) (by decide) (by decide) (by decide) (by decide) (by decide)
     (by decide) (by decide) (by decide) (by decide) (by decide) (by decide),
   by decide⟩

/-! ## C2 -/

/-- C2: the signature-ID round-trip.  For every `BodyType`, every
non-negative one-decimal body-fat value `n/10`, every 6-character hash
over `A-F0-9` and every non-negative two-decimal Adonis Index `k/100`,
parsing the generated ID succeeds and returns exactly the formatted
body-type string (spaces/hyphens stripped), the body-fat value, the hash,
and the Adonis Index. -/
theorem signature_id_roundtrip (bt : BodyType) (n k : ℕ) (hash : String)
    (hlen : hash.toList.length = 6)
    (hhex : ∀ c ∈ hash.toList, isHexUpperDigit c = true) :
    parse_body_signature_id
        (generate_body_signature_id bt ((n : ℚ) / 10) hash ((k : ℚ) / 100)) =
      some ⟨format_body_type bt, (n : ℚ) / 10, hash, (k : ℚ) / 100,
        generate_body_signature_id bt ((n : ℚ) / 10) hash ((k : ℚ) / 100)⟩ := by
  have hfmt1 : (fmtFixed 1 ((n : ℚ) / 10)).toList =
      natDigits (n / 10) ++ ('.' :: padZeros 1 (natDigits (n % 10))) := by
    have := fmtFixed_natCast_div 1 n
    norm_num at this
    exact this
  have hfmt2 : (fmtFixed 2 ((k : ℚ) / 100)).toList =
      natDigits (k / 100) ++ ('.' :: padZeros 2 (natDigits (k % 100))) := by
    have := fmtFixed_natCast_div 2 k
    norm_num at this
    exact this
  have hdec : (generate_body_signature_id bt ((n : ℚ) / 10) hash
      ((k : ℚ) / 100)).toList =
      sigAssemble (format_body_type bt).toList (natDigits (n / 10))
        (padZeros 1 (natDigits (n % 10))) hash.toList (natDigits (k / 100))
        (padZeros 2 (natDigits (k % 100))) [] := by
    simp only [String.toList] at hfmt1 hfmt2
    unfold generate_body_signature_id sigAssemble
    simp only [String.toList, String.data_append, hfmt1, hfmt2,
      List.append_assoc, List.cons_append, List.nil_append, List.append_nil]
  have hbtList : (format_body_type bt).toList ≠ [] ∧
      ∀ c ∈ (format_body_type bt).toList, c.isAlpha = true := by
    cases bt <;> exact ⟨by decide, by decide⟩
  have hv1 : decimalValue (natDigits (n / 10))
      (padZeros 1 (natDigits (n % 10))) = (n : ℚ) / 10 := by
    have := decimalValue_fmt 1 n (by norm_num)
    norm_num at this
    exact this
  have hv2 : decimalValue (natDigits (k / 100))
      (padZeros 2 (natDigits (k % 100))) = (k : ℚ) / 100 := by
    have := decimalValue_fmt 2 k (by norm_num)
    norm_num at this
    exact this
  have hfwd := sigRegexMatch_assemble (format_body_type bt).toList
    (natDigits (n / 10)) (padZeros 1 (natDigits (n % 10))) hash.toList
    (natDigits (k / 100)) (padZeros 2 (natDigits (k % 100))) []
    (Or.inl rfl)
    hbtList.1 hbtList.2
    (natDigits_ne_nil _) (natDigits_all_pyDigit _)
    (padZeros_ne_nil (by norm_num)
      (natDigits_length_le _ 1 (by simpa using Nat.mod_lt n (by norm_num))
        (by norm_num)))
    (padZeros_all_pyDigit 1 (natDigits_all_pyDigit _))
    hlen hhex
    (natDigits_ne_nil _) (natDigits_all_pyDigit _)
    (padZeros_ne_nil (by norm_num)
      (natDigits_length_le _ 2 (by simpa using Nat.mod_lt k (by norm_num))
        (by norm_num)))
    (padZeros_all_pyDigit 2 (natDigits_all_pyDigit _))
  unfold parse_body_signature_id
  rw [hdec, hfwd]
  simp only [hv1, hv2]
  rfl

/-- Witness for C2 at a concrete input (spec scenario 3): V-Taper, 12.5%
body fat, hash `A3F7C2`, Adonis Index 1.54. -/
theorem signature_id_roundtrip_witness :
    ("A3F7C2".toList.length = 6 ∧
      ∀ c ∈ "A3F7C2".toList, isHexUpperDigit c = true) ∧
    parse_body_signature_id
        (generate_body_signature_id BodyType.VTAPER ((125 : ℚ) / 10) "A3F7C2"
          ((154 : ℚ) / 100)) =
      some ⟨format_body_type BodyType.VTAPER, (125 : ℚ) / 10, "A3F7C2",
        (154 : ℚ) / 100,
        generate_body_signature_id BodyType.VTAPER ((125 : ℚ) / 10) "A3F7C2"
          ((154 : ℚ) / 100)⟩ :=
  ⟨⟨by decide, by decide⟩, by
    have h := signature_id_roundtrip BodyType.VTAPER 125 154 "A3F7C2"
      (by decide) (by decide)
    push_cast at h ⊢
    exact h⟩

/-! ## C6 helpers -/

/-- The sixteen characters a truncated uppercased hexdigest can contain. -/
def hexUpperChars : List Char :=
  ['0', '1', '2', '3', '4', '5', '6', '7', '8', '9', 'A', 'B', 'C', 'D', 'E', 'F']

theorem hexChar_toUpper_mem (n : ℕ) : (hexChar n).toUpper ∈ hexUpperChars := by
  have h : n % 16 < 16 := Nat.mod_lt _ (by omega)
  unfold hexChar
  generalize hk : n % 16 = k at h ⊢
  interval_cases k <;> decide

theorem hexUpperChars_isAlnum {c : Char} (h : c ∈ hexUpperChars) :
    c.isAlphanum = true ∧ c.isLower = false := by
  fin_cases h <;> exact ⟨by decide, by decide⟩

theorem sha256Hexdigest_mem {msg : List ℕ} {c : Char}
    (hc : c ∈ sha256Hexdigest msg) : ∃ n, c = hexChar n := by
  unfold sha256Hexdigest at hc
  rw [List.mem_flatten] at hc
  obtain ⟨blk, hblk, hcblk⟩ := hc
  rw [List.mem_map] at hblk
  obtain ⟨b, -, rfl⟩ := hblk
  unfold byteHexChars at hcblk
  rcases List.mem_cons.mp hcblk with rfl | hcblk
  · exact ⟨b / 16, rfl⟩
  · rcases List.mem_cons.mp hcblk with rfl | hcblk
    · exact ⟨b, rfl⟩
    · simp at hcblk

theorem sha256Bytes_length (msg : List ℕ) : (sha256Bytes msg).length = 32 := by
  unfold sha256Bytes wordBytes
  simp

theorem sha256Hexdigest_length (msg : List ℕ) :
    (sha256Hexdigest msg).length = 64 := by
  have hgen : ∀ l : List ℕ, ((l.map byteHexChars).flatten).length = 2 * l.length := by
    intro l
    induction l with
    | nil => simp
    | cons b t ih => simp [byteHexChars, ih]; omega
  unfold sha256Hexdigest
  rw [hgen, sha256Bytes_length]

/-- Every string of six `0-9A-F` characters passes the length and
`isalnum` checks of `validate_hash_format`; acceptance then reduces to
Python's `isupper`, which demands at least one cased (alphabetic)
character. -/
theorem validate_hash_format_hex {s : String} (hlen : s.toList.length = 6)
    (hmem : ∀ c ∈ s.toList, c ∈ hexUpperChars) :
    validate_hash_format s = true ↔ ∃ c ∈ s.toList, c.isAlpha = true := by
  have hne : s.toList.isEmpty = false := by
    cases h : s.toList with
    | nil => rw [h] at hlen; simp at hlen
    | cons a t => simp
  have halnum : pyIsAlnum s = true := by
    unfold pyIsAlnum
    rw [hne]
    simp only [Bool.not_false, Bool.true_and, List.all_eq_true]
    intro c hc
    exact (hexUpperChars_isAlnum (hmem c hc)).1
  have hnolower : s.toList.all (fun c => !c.isLower) = true := by
    rw [List.all_eq_true]
    intro c hc
    rw [(hexUpperChars_isAlnum (hmem c hc)).2]
    rfl
  have hdata : s.data ≠ [] := by
    intro h0
    have : s.toList = [] := h0
    rw [this] at hlen
    simp at hlen
  have hslen : s.length = 6 := hlen
  have hval : validate_hash_format s = pyIsUpper s := by
    unfold validate_hash_format
    simp [hne, halnum, hdata, hslen]
  have hup : pyIsUpper s = s.toList.any (fun c => c.isAlpha) := by
    unfold pyIsUpper
    rw [hnolower]
    simp
  rw [hval, hup, List.any_eq_true]

/-! ## C6 -/

set_option maxRecDepth 10000 in
/-- C6 counterexample: at chest 100.3, waist 80, hips 95, bicep 38, thigh
58, body-fat 12.5 and ratios 1.56 / 0.84 / 1.31 the composition hash is
`"776943"` — all digits — and Python's `str.isupper()` is false on a
string with no cased character, so `validate_hash_format` rejects this
generated hash, refuting the claim as stated. -/
theorem hash_format_counterexample :
    validate_hash_format (generate_composition_hash
      ⟨1003/10, 80, 95, 38, 58, some 40, some 48, 125/10, none, 8, none⟩
      ⟨156/100, 156/100, 0, 84/100, 131/100, 38/105, none, 85⟩) = false := by
  decide

/-- C6 (amended): every generated composition hash is exactly 6
characters drawn from `0-9A-F`, and `validate_hash_format` accepts it if
and only if it contains at least one letter — i.e. unless the 6-character
hex prefix happens to be all digits, in which case Python's `isupper`
check rejects it. -/
theorem hash_format_self_validity (m : BodyMeasurements) (r : BodyRatios) :
    (generate_composition_hash m r).toList.length = 6 ∧
    (∀ c ∈ (generate_composition_hash m r).toList, c ∈ hexUpperChars) ∧
    (validate_hash_format (generate_composition_hash m r) = true ↔
      ∃ c ∈ (generate_composition_hash m r).toList, c.isAlpha = true) := by
  have hlist : (generate_composition_hash m r).toList =
      ((sha256Hexdigest (strToBytes (compositionString m r))).take 6).map
        Char.toUpper := rfl
  have hlen : (generate_composition_hash m r).toList.length = 6 := by
    rw [hlist, List.length_map, List.length_take,
      sha256Hexdigest_length]
    omega
  have hmem : ∀ c ∈ (generate_composition_hash m r).toList,
      c ∈ hexUpperChars := by
    intro c hc
    rw [hlist, List.mem_map] at hc
    obtain ⟨c', hc', rfl⟩ := hc
    obtain ⟨n, rfl⟩ := sha256Hexdigest_mem (List.take_subset 6 _ hc')
    exact hexChar_toUpper_mem n
  exact ⟨hlen, hmem, validate_hash_format_hex hlen hmem⟩

end PhotoAnalysis
